import Mathlib

/-!
Shallow embedding of `app/database/connection.py` (ConnectionPool) from the
Frostel repository, together with proofs about its checkout/checkin protocol,
overflow accounting, circuit breaker, retry factory and metrics.

Modelling conventions:
* Wall-clock readings (`time.time()`, `datetime.now(timezone.utc)`) are passed
  in explicitly as rational numbers (`now : ℚ`).
* A raw PyMySQL connection is a `Conn` record carrying its Python identity
  (`id(connection)`), its `open` flag and the outcome of a liveness ping.
* Calls into the driver (`pymysql.connect`) are an oracle
  `f : Nat → Except PyError Conn` giving the outcome of each attempt.
* Exceptions are values of `PyError`; a function that can raise returns
  `Except PyError _`.
* Each stateful operation additionally returns the list of driver-level
  events it performed (commit/rollback/close/enqueue/sleep/connect), so that
  ordering properties of the checkout/checkin contract can be stated.
-/

namespace Frostel

/-- `CircuitState` enum from `app/models/enums.py`. -/
inductive CircuitState where
  | CLOSED
  | OPEN
  | HALF_OPEN
deriving DecidableEq, Repr

/-- One raw database connection: its Python identity `id(connection)`, its
`connection.open` flag, and whether `connection.ping(reconnect=False)`
succeeds. -/
structure Conn where
  cid : Nat
  isOpen : Bool
  alive : Bool
deriving DecidableEq, Repr

/-- The Python exceptions that flow through `connection.py`. -/
inductive PyError where
  | circuitBreaker (retry_after : ℚ)
  | queueEmpty
  | queueFull
  | dbError (code : Nat)
  | typeError
  | runtimeError
  | userError (code : Nat)
deriving DecidableEq, Repr

/-- Driver-level events, recorded as an execution trace. -/
inductive Event where
  | commit (cid : Nat)
  | rollback (cid : Nat)
  | close (cid : Nat)
  | enqueue (cid : Nat)
  | connectSuccess (cid : Nat)
  | connectFail
  | sleep (d : ℚ)
deriving DecidableEq, Repr

/-- `ConnectionMetrics` dataclass from `app/database/connection_metrics.py`.
Counters are `Nat`; gauges are `Int` because the code decrements them without
a lower-bound guard; timing statistics are exact rationals. -/
structure ConnectionMetrics where
  total_connections_created : Nat
  total_connections_closed : Nat
  total_checkouts : Nat
  total_checkins : Nat
  total_errors : Nat
  total_retries : Nat
  active_connections : Int
  idle_connections : Int
  overflow_connections : Int
  avg_checkout_time_ms : ℚ
  max_checkout_time_ms : ℚ
  circuit_state : CircuitState
  circuit_failures : Nat
  circuit_opened_at : Option ℚ
  last_health_check : Option ℚ
  health_check_failures : Nat
deriving DecidableEq, Repr

/-- The all-zero metrics record produced by `ConnectionMetrics()`. -/
def initMetrics : ConnectionMetrics :=
  { total_connections_created := 0
    total_connections_closed := 0
    total_checkouts := 0
    total_checkins := 0
    total_errors := 0
    total_retries := 0
    active_connections := 0
    idle_connections := 0
    overflow_connections := 0
    avg_checkout_time_ms := 0
    max_checkout_time_ms := 0
    circuit_state := CircuitState.CLOSED
    circuit_failures := 0
    circuit_opened_at := none
    last_health_check := none
    health_check_failures := 0 }

/-- State of one `ConnectionPool` object: configuration fields, the idle
queue `self._pool` (head of the list is the next connection dequeued), the
overflow counter, the creation-timestamp map and the metrics record. -/
structure PoolState where
  pool_size : Nat
  max_overflow : Nat
  pool_recycle : ℚ
  max_retry_attempts : Nat
  circuit_failure_threshold : Nat
  circuit_timeout : ℚ
  pool : List Conn
  overflow_count : Int
  timestamps : List (Nat × ℚ)
  metrics : ConnectionMetrics
deriving DecidableEq, Repr

/-- `self._connection_timestamps[id(connection)] = t` (dict assignment). -/
def tsInsert (k : Nat) (v : ℚ) (l : List (Nat × ℚ)) : List (Nat × ℚ) :=
  (k, v) :: l.filter (fun p => p.1 ≠ k)

/-- `self._connection_timestamps.pop(id(connection), None)`. -/
def tsPop (k : Nat) (l : List (Nat × ℚ)) : List (Nat × ℚ) :=
  l.filter (fun p => p.1 ≠ k)

/-- `ConnectionPool._record_circuit_failure` (connection.py:254-280): increment
`circuit_failures`; if the counter has reached the threshold and the circuit is
not already OPEN, open it and stamp `circuit_opened_at` with the current time. -/
def _record_circuit_failure (s : PoolState) (now : ℚ) : PoolState :=
  let m := { s.metrics with circuit_failures := s.metrics.circuit_failures + 1 }
  if s.circuit_failure_threshold ≤ m.circuit_failures then
    if m.circuit_state ≠ CircuitState.OPEN then
      { s with metrics := { m with circuit_state := CircuitState.OPEN,
                                   circuit_opened_at := some now } }
    else { s with metrics := m }
  else { s with metrics := m }

/-- `ConnectionPool._check_circuit` (connection.py:282-314). If the circuit is
OPEN: compute the time elapsed since `circuit_opened_at`; if it strictly
exceeds `circuit_timeout`, move to HALF_OPEN and proceed, otherwise raise
`CircuitBreakerException` carrying `circuit_timeout - elapsed` as the
retry-after hint.  (`circuit_opened_at = None` while OPEN would make the
Python subtraction raise `TypeError`.) -/
def _check_circuit (s : PoolState) (now : ℚ) : Except PyError PoolState :=
  if s.metrics.circuit_state = CircuitState.OPEN then
    match s.metrics.circuit_opened_at with
    | none => Except.error PyError.typeError
    | some t =>
      let elapsed := now - t
      if s.circuit_timeout < elapsed then
        Except.ok { s with metrics :=
          { s.metrics with circuit_state := CircuitState.HALF_OPEN } }
      else
        Except.error (PyError.circuitBreaker (s.circuit_timeout - elapsed))
  else Except.ok s

/-- `ConnectionPool._reset_circuit` (connection.py:316-333): if the circuit is
not already CLOSED, close it, zero the failure counter and clear
`circuit_opened_at`. -/
def _reset_circuit (s : PoolState) : PoolState :=
  if s.metrics.circuit_state ≠ CircuitState.CLOSED then
    { s with metrics := { s.metrics with circuit_state := CircuitState.CLOSED,
                                         circuit_failures := 0,
                                         circuit_opened_at := none } }
  else s

/-- `ConnectionPool._is_connection_stale` (connection.py:335-355): stale when
no creation timestamp is recorded, or the age strictly exceeds
`pool_recycle`. -/
def _is_connection_stale (s : PoolState) (c : Conn) (now : ℚ) : Bool :=
  match s.timestamps.lookup c.cid with
  | none => true
  | some t => decide (s.pool_recycle < now - t)

/-- `ConnectionPool._is_connection_alive` (connection.py:357-379):
`connection.ping(reconnect=False)` succeeds; the outcome is carried on the
`Conn` value. -/
def _is_connection_alive (c : Conn) : Bool :=
  c.alive

/-- `ConnectionPool._calculate_backoff_delay` (connection.py:233-252):
`base_delay * (2 ** attempt)`; `base_delay` defaults to 0.5 s at the call
site. -/
def _calculate_backoff_delay (attempt : Nat) (base_delay : ℚ) : ℚ :=
  base_delay * 2 ^ attempt

/-- Loop body of `_create_connection_with_retry` (connection.py:178-231):
`for attempt in range(max_retry_attempts)`, modelled with `fuel`
(`maxr - attempt` remaining iterations).  A successful attempt stamps the
creation timestamp, bumps `total_connections_created`/`idle_connections` and,
when `attempt > 0`, adds `attempt` to `total_retries`.  A failed attempt
records the error and, except after the last attempt, sleeps
`_calculate_backoff_delay attempt 0.5` seconds.  On exhaustion the code bumps
`total_errors`, records a circuit failure and re-raises the last error
(Python would `raise None` → `TypeError` if no attempt ran). -/
def createGo (f : Nat → Except PyError Conn) (now : ℚ) (maxr : Nat) :
    Nat → Nat → Option PyError → PoolState →
    Except PyError Conn × PoolState × List Event
  | 0, _, last, s =>
    let s1 := { s with metrics :=
      { s.metrics with total_errors := s.metrics.total_errors + 1 } }
    let s2 := _record_circuit_failure s1 now
    (Except.error (match last with | some e => e | none => PyError.typeError), s2, [])
  | fuel + 1, attempt, _, s =>
    match f attempt with
    | Except.ok c =>
      let s1 := { s with timestamps := tsInsert c.cid now s.timestamps }
      let s2 := { s1 with metrics := { s1.metrics with
        total_connections_created := s1.metrics.total_connections_created + 1,
        idle_connections := s1.metrics.idle_connections + 1 } }
      let s3 :=
        if 0 < attempt then
          { s2 with metrics := { s2.metrics with
            total_retries := s2.metrics.total_retries + attempt } }
        else s2
      (Except.ok c, s3, [Event.connectSuccess c.cid])
    | Except.error e =>
      if attempt < maxr - 1 then
        let d := _calculate_backoff_delay attempt (1 / 2)
        let r := createGo f now maxr fuel (attempt + 1) (some e) s
        (r.1, r.2.1, Event.connectFail :: Event.sleep d :: r.2.2)
      else
        let r := createGo f now maxr fuel (attempt + 1) (some e) s
        (r.1, r.2.1, Event.connectFail :: r.2.2)

/-- `ConnectionPool._create_connection_with_retry` (connection.py:162-231). -/
def _create_connection_with_retry (s : PoolState) (f : Nat → Except PyError Conn)
    (now : ℚ) : Except PyError Conn × PoolState × List Event :=
  createGo f now s.max_retry_attempts s.max_retry_attempts 0 none s

/-- `self._pool.get(block=False)`: dequeue the head or raise `queue.Empty`.
The bounded blocking `get(block=True, timeout=10)` behaves identically in
this sequentialised embedding: it returns a currently queued connection if
one exists and otherwise the wait expires into `queue.Empty`. -/
def queue_get (s : PoolState) : Except PyError (Conn × PoolState) :=
  match s.pool with
  | [] => Except.error PyError.queueEmpty
  | c :: rest => Except.ok (c, { s with pool := rest })

/-- `self._pool.put(connection, block=False)`: raise `queue.Full` when the
queue has a positive capacity and is at capacity (a `Queue(maxsize=0)` is
unbounded), otherwise append. -/
def queue_put (s : PoolState) (c : Conn) : Except PyError PoolState :=
  if 0 < s.pool_size ∧ s.pool_size ≤ s.pool.length then
    Except.error PyError.queueFull
  else
    Except.ok { s with pool := s.pool ++ [c] }

/-- `ConnectionPool._get_connection` (connection.py:381-449).
Try a non-blocking dequeue; a stale or dead connection is closed
(`total_connections_closed += 1`, timestamp popped) and replaced through the
factory — a factory error there is caught by `except Exception`
(`total_errors += 1`, re-raise).  On `queue.Empty`: if
`overflow_count < max_overflow`, increment the counter, publish it to the
`overflow_connections` gauge and create an overflow connection (errors
raised inside this `except Empty` handler propagate uncaught); otherwise
fall back to a bounded blocking dequeue. -/
def _get_connection (s : PoolState) (f : Nat → Except PyError Conn) (now : ℚ) :
    Except PyError Conn × PoolState × List Event :=
  match queue_get s with
  | Except.ok (c, s1) =>
    if _is_connection_stale s1 c now || !(_is_connection_alive c) then
      let s2 := { s1 with
        metrics := { s1.metrics with
          total_connections_closed := s1.metrics.total_connections_closed + 1 },
        timestamps := tsPop c.cid s1.timestamps }
      match _create_connection_with_retry s2 f now with
      | (Except.ok c2, s3, tr) => (Except.ok c2, s3, Event.close c.cid :: tr)
      | (Except.error e, s3, tr) =>
        (Except.error e,
         { s3 with metrics :=
           { s3.metrics with total_errors := s3.metrics.total_errors + 1 } },
         Event.close c.cid :: tr)
    else (Except.ok c, s1, [])
  | Except.error _ =>
    if s.overflow_count < (s.max_overflow : Int) then
      let s1 := { s with overflow_count := s.overflow_count + 1 }
      let s2 := { s1 with metrics :=
        { s1.metrics with overflow_connections := s1.overflow_count } }
      _create_connection_with_retry s2 f now
    else
      match queue_get s with
      | Except.ok (c, s1) => (Except.ok c, s1, [])
      | Except.error e => (Except.error e, s, [])

/-- `ConnectionPool._return_connection` (connection.py:451-499).
Roll back if the connection is open; try a non-blocking enqueue; on
`queue.Full` decrement the overflow counter, publish the gauge, close the
connection, bump `total_connections_closed`, decrement `idle_connections`
and discard the creation timestamp. -/
def _return_connection (s : PoolState) (c : Conn) : PoolState × List Event :=
  let rbTr : List Event := if c.isOpen then [Event.rollback c.cid] else []
  match queue_put s c with
  | Except.ok s1 => (s1, rbTr ++ [Event.enqueue c.cid])
  | Except.error _ =>
    let s1 := { s with overflow_count := s.overflow_count - 1 }
    let s2 := { s1 with metrics :=
      { s1.metrics with overflow_connections := s1.overflow_count } }
    let s3 := { s2 with
      metrics := { s2.metrics with
        total_connections_closed := s2.metrics.total_connections_closed + 1,
        idle_connections := s2.metrics.idle_connections - 1 },
      timestamps := tsPop c.cid s2.timestamps }
    (s3, rbTr ++ [Event.close c.cid])

/-- The checkout-metrics block of `get_connection` (connection.py:535-546):
`total_checkouts += 1`, `active_connections += 1`, `idle_connections -= 1`,
then `avg' = (avg*(n-1) + sample)/n` with `n = total_checkouts` and
`max' = max max sample`. -/
def updateCheckoutMetrics (m : ConnectionMetrics) (checkout_time_ms : ℚ) :
    ConnectionMetrics :=
  let m1 := { m with total_checkouts := m.total_checkouts + 1,
                     active_connections := m.active_connections + 1,
                     idle_connections := m.idle_connections - 1 }
  let n : ℚ := (m1.total_checkouts : ℚ)
  { m1 with
    avg_checkout_time_ms :=
      (m1.avg_checkout_time_ms * (n - 1) + checkout_time_ms) / n,
    max_checkout_time_ms := max m1.max_checkout_time_ms checkout_time_ms }

/-- The `finally` metrics block of `get_connection` (connection.py:565-568):
`active_connections -= 1`, `total_checkins += 1`, `idle_connections += 1`. -/
def checkinMetrics (s : PoolState) : PoolState :=
  { s with metrics := { s.metrics with
      active_connections := s.metrics.active_connections - 1,
      total_checkins := s.metrics.total_checkins + 1,
      idle_connections := s.metrics.idle_connections + 1 } }

/-- `self.metrics.total_errors += 1` under the metrics lock. -/
def bumpErrors (s : PoolState) : PoolState :=
  { s with metrics :=
    { s.metrics with total_errors := s.metrics.total_errors + 1 } }

/-- `ConnectionPool.get_connection` (connection.py:501-568), the
`@contextmanager` scoped checkout, as a function of the caller's unit of
work `work` (the code run while the generator is suspended at `yield`) and
the measured checkout latency `checkout_time_ms` (in the source,
`(time.time() - checkout_start_time) * 1000`).

* `_check_circuit` runs before the `try`, so its exception propagates with
  no state change and no `finally` block.
* If `_get_connection` raises, `connection` is still `None`: no rollback,
  `total_errors += 1`, re-raise; the `finally` block skips the return but
  still runs the checkin metrics block.
* On success of the work, `connection.commit()` then `_reset_circuit()`.
* On an exception from the work, `connection.rollback()`,
  `total_errors += 1`, re-raise unchanged.
* In both cases the `finally` block runs `_return_connection` and the
  checkin metrics block. -/
def get_connection (s : PoolState) (now : ℚ) (f : Nat → Except PyError Conn)
    (checkout_time_ms : ℚ) (work : Except PyError Unit) :
    Except PyError Unit × PoolState × List Event :=
  match _check_circuit s now with
  | Except.error e => (Except.error e, s, [])
  | Except.ok s0 =>
    match _get_connection s0 f now with
    | (Except.error e, s1, tr) =>
      (Except.error e, checkinMetrics (bumpErrors s1), tr)
    | (Except.ok c, s1, tr) =>
      let s2 := { s1 with metrics := updateCheckoutMetrics s1.metrics checkout_time_ms }
      match work with
      | Except.ok _ =>
        let s3 := _reset_circuit s2
        let r := _return_connection s3 c
        (Except.ok Unit.unit, checkinMetrics r.1,
         tr ++ Event.commit c.cid :: r.2)
      | Except.error e =>
        let s3 := bumpErrors s2
        let r := _return_connection s3 c
        (Except.error e, checkinMetrics r.1,
         tr ++ Event.rollback c.cid :: r.2)

/-- Drain-and-close loop of `close_all_connections` (connection.py:570-592):
close every queued connection and discard its timestamp
(`total_connections_closed` is not touched there). -/
def drainClose : List Conn → PoolState → PoolState × List Event
  | [], s => (s, [])
  | c :: rest, s =>
    let r := drainClose rest { s with timestamps := tsPop c.cid s.timestamps }
    (r.1, Event.close c.cid :: r.2)

/-- `ConnectionPool.close_all_connections` (connection.py:570-592). -/
def close_all_connections (s : PoolState) : PoolState × List Event :=
  drainClose s.pool { s with pool := [] }

/-- `ConnectionPool.health_check` (connection.py:619-691), restricted to its
effect on the pool state: a successful probe stamps `last_health_check` and
zeroes `health_check_failures`; a failed probe increments
`health_check_failures`.  The probe uses a direct connection, not the pool. -/
def health_check (s : PoolState) (ok : Bool) (now : ℚ) : PoolState :=
  if ok then
    { s with metrics := { s.metrics with last_health_check := some now,
                                         health_check_failures := 0 } }
  else
    { s with metrics := { s.metrics with
        health_check_failures := s.metrics.health_check_failures + 1 } }

/-- The `ConnectionPool.__init__` state before `_initialise_pool` runs:
empty queue, zero overflow counter, empty timestamp map, fresh metrics. -/
def mkInitialState (pool_size max_overflow : Nat) (pool_recycle : ℚ)
    (max_retry_attempts circuit_failure_threshold : Nat)
    (circuit_timeout : ℚ) : PoolState :=
  { pool_size := pool_size
    max_overflow := max_overflow
    pool_recycle := pool_recycle
    max_retry_attempts := max_retry_attempts
    circuit_failure_threshold := circuit_failure_threshold
    circuit_timeout := circuit_timeout
    pool := []
    overflow_count := 0
    timestamps := []
    metrics := initMetrics }

/-- Loop of `_initialise_pool` (connection.py:139-160): `pool_size` times,
create a connection (oracle `g i` gives the attempt outcomes of iteration
`i`) and put it into the queue (a blocking put that never fills past
capacity here).  A creation failure aborts construction: the raised error
propagates out of `__init__`, so no pool object exists. -/
def initLoop (g : Nat → Nat → Except PyError Conn) (now : ℚ) :
    Nat → Nat → PoolState → Except PyError PoolState
  | 0, _, s => Except.ok s
  | k + 1, i, s =>
    match _create_connection_with_retry s (g i) now with
    | (Except.ok c, s1, _) => initLoop g now k (i + 1) { s1 with pool := s1.pool ++ [c] }
    | (Except.error e, _, _) => Except.error e

/-- `ConnectionPool._initialise_pool` (connection.py:139-160). -/
def _initialise_pool (s : PoolState) (g : Nat → Nat → Except PyError Conn)
    (now : ℚ) : Except PyError PoolState :=
  initLoop g now s.pool_size 0 s

/-- The name `pool` that `get_pool` tests (connection.py:748): it is the
module imported by `from multiprocessing import pool` (connection.py:5),
a module object, hence never `None`. -/
def pool_module_import : Option Unit :=
  some Unit.unit

/-- `get_pool` (connection.py:747-752): `if pool is None: raise RuntimeError;
return _pool`, where the guard inspects `pool_module_import` (the imported
module) instead of the module-level singleton `_pool` that is passed here as
`p`. -/
def get_pool (p : Option PoolState) : Except PyError (Option PoolState) :=
  match pool_module_import with
  | none => Except.error PyError.runtimeError
  | some _ => Except.ok p

/-! ## Reachable pool states

The pool is driven concurrently; each lock-protected phase of
`get_connection` is one atomic step of this relation.  `World` pairs the
pool state with the multiset (as a list) of currently checked-out
connections. -/

/-- A pool state together with the connections currently checked out. -/
structure World where
  s : PoolState
  out : List Conn

/-- One atomic phase of the pool's public operations.  `checkout_ok` and
`checkout_fail` are the first half of `get_connection` (circuit check,
acquisition, checkout metrics; on failure also the `except`/`finally`
blocks, which run with `connection = None`).  `finish_ok`/`finish_err` are
the second half for a held connection (commit + circuit reset, or rollback +
error count, then `_return_connection` and the checkin metrics).
`close_all` and `health` are the other state-mutating public operations. -/
inductive Step : World → World → Prop
  | checkout_ok (w : World) (now x : ℚ) (f : Nat → Except PyError Conn)
      (s1 s2 : PoolState) (c : Conn) (tr : List Event) :
      _check_circuit w.s now = Except.ok s1 →
      _get_connection s1 f now = (Except.ok c, s2, tr) →
      Step w ⟨{ s2 with metrics := updateCheckoutMetrics s2.metrics x }, c :: w.out⟩
  | checkout_fail (w : World) (now : ℚ) (f : Nat → Except PyError Conn)
      (s1 s2 : PoolState) (e : PyError) (tr : List Event) :
      _check_circuit w.s now = Except.ok s1 →
      _get_connection s1 f now = (Except.error e, s2, tr) →
      Step w ⟨checkinMetrics (bumpErrors s2), w.out⟩
  | finish_ok (w : World) (c : Conn) :
      c ∈ w.out →
      Step w ⟨checkinMetrics (_return_connection (_reset_circuit w.s) c).1, w.out.erase c⟩
  | finish_err (w : World) (c : Conn) :
      c ∈ w.out →
      Step w ⟨checkinMetrics (_return_connection (bumpErrors w.s) c).1, w.out.erase c⟩
  | close_all (w : World) :
      Step w ⟨(close_all_connections w.s).1, w.out⟩
  | health (w : World) (ok : Bool) (now : ℚ) :
      Step w ⟨health_check w.s ok now, w.out⟩

/-- Worlds reachable from a freshly constructed pool. -/
inductive Reachable : World → Prop
  | init (pool_size max_overflow : Nat) (pool_recycle : ℚ)
      (max_retry_attempts circuit_failure_threshold : Nat) (circuit_timeout : ℚ)
      (g : Nat → Nat → Except PyError Conn) (now : ℚ) (s0 : PoolState) :
      _initialise_pool
        (mkInitialState pool_size max_overflow pool_recycle
          max_retry_attempts circuit_failure_threshold circuit_timeout)
        g now = Except.ok s0 →
      Reachable ⟨s0, []⟩
  | step (w w' : World) : Reachable w → Step w w' → Reachable w'

/-! ## Concrete material for witnesses -/

/-- A live, open demo connection. -/
def okConn : Conn := ⟨0, true, true⟩

/-- A second live, open demo connection. -/
def okConn2 : Conn := ⟨1, true, true⟩

/-- Driver oracle whose every attempt succeeds with `okConn2`. -/
def okOracle : Nat → Except PyError Conn := fun _ => Except.ok okConn2

/-- Driver oracle whose every attempt fails. -/
def failOracle : Nat → Except PyError Conn := fun i => Except.error (PyError.dbError i)

/-- A demo configuration: pool_size 1, max_overflow 1, recycle 3600 s,
3 retry attempts, failure threshold 5, circuit timeout 60 s. -/
def demoBase : PoolState := mkInitialState 1 1 3600 3 5 60

/-- `demoBase` with `okConn` idle in the queue, stamped at time 0. -/
def demoPool : PoolState :=
  { demoBase with pool := [okConn], timestamps := [(0, 0)] }

/-- `demoPool` with the circuit OPEN since time 0. -/
def demoOpen : PoolState :=
  { demoPool with metrics := { demoPool.metrics with
      circuit_state := CircuitState.OPEN, circuit_failures := 5,
      circuit_opened_at := some 0 } }

/-- The state `_initialise_pool` produces for the demo configuration with an
all-success oracle. -/
def demoInitState : PoolState :=
  match _initialise_pool demoBase (fun _ _ => Except.ok okConn) 0 with
  | Except.ok s => s
  | Except.error _ => demoBase

/-! ## Statement-side helper definitions -/

/-- The event trace produced by `k` consecutive failed connection attempts
starting at attempt index `start`, each followed by its exponential-backoff
sleep of `0.5 * 2 ^ attempt` seconds. -/
def backoffTrace (start : Nat) : Nat → List Event
  | 0 => []
  | k + 1 =>
    Event.connectFail :: Event.sleep (_calculate_backoff_delay start (1 / 2)) ::
      backoffTrace (start + 1) k

/-- `k` consecutive calls to `_record_circuit_failure`, i.e. `k` recorded
connection-creation failures. -/
def iterFailures (now : ℚ) : Nat → PoolState → PoolState
  | 0, s => s
  | k + 1, s => iterFailures now k (_record_circuit_failure s now)

/-- The configuration fields of the pool, which no operation mutates. -/
def cfgPreserved (s s' : PoolState) : Prop :=
  s'.pool_size = s.pool_size ∧ s'.max_overflow = s.max_overflow ∧
  s'.pool_recycle = s.pool_recycle ∧ s'.max_retry_attempts = s.max_retry_attempts ∧
  s'.circuit_failure_threshold = s.circuit_failure_threshold ∧
  s'.circuit_timeout = s.circuit_timeout

/-- `demoOpen` with the circuit already moved to HALF_OPEN. -/
def demoHalfOpen : PoolState :=
  { demoOpen with metrics :=
    { demoOpen.metrics with circuit_state := CircuitState.HALF_OPEN } }

/-- `demoHalfOpen` after its single idle connection is dequeued. -/
def demoHalfOpenEmpty : PoolState :=
  { demoHalfOpen with pool := [] }

/-- The intermediate state of `_get_connection` on `demoPool` after its
single idle connection is found stale: dequeued, close counted, timestamp
discarded. -/
def demoStaleClosed : PoolState :=
  { demoPool with
    pool := [],
    metrics := { demoPool.metrics with
      total_connections_closed := demoPool.metrics.total_connections_closed + 1 },
    timestamps := tsPop okConn.cid demoPool.timestamps }

/-- `demoPool` after its single idle connection is dequeued. -/
def demoPoolEmpty : PoolState :=
  { demoPool with pool := [] }

/-- The overflow-accounting invariant: the counter stays within
`[0, max_overflow]`, idle plus checked-out connections are covered by
`pool_size + overflow_count`, and the published gauge never exceeds
`max_overflow`. -/
def overflowInv (w : World) : Prop :=
  0 ≤ w.s.overflow_count ∧
  w.s.overflow_count ≤ (w.s.max_overflow : Int) ∧
  (w.s.pool.length : Int) + (w.out.length : Int) ≤
    (w.s.pool_size : Int) + w.s.overflow_count ∧
  w.s.metrics.overflow_connections ≤ (w.s.max_overflow : Int)

end Frostel

namespace Frostel

/-! ## Basic lemmas -/

theorem tsInsert_lookup (k : Nat) (v : ℚ) (l : List (Nat × ℚ)) :
    (tsInsert k v l).lookup k = some v := by
  simp [tsInsert, List.lookup]

theorem tsPop_lookup (k : Nat) (l : List (Nat × ℚ)) :
    (tsPop k l).lookup k = none := by
  induction l with
  | nil => rfl
  | cons p rest ih =>
    obtain ⟨a, b⟩ := p
    by_cases h : a = k
    · simpa [tsPop, h] using ih
    · have step : tsPop k ((a, b) :: rest) = (a, b) :: tsPop k rest := by
        simp [tsPop, h]
      have hk : (k == a) = false := by simpa using Ne.symm h
      rw [step, List.lookup, hk]
      exact ih

theorem stale_pool_irrel (s : PoolState) (l : List Conn) (c : Conn) (now : ℚ) :
    _is_connection_stale { s with pool := l } c now = _is_connection_stale s c now :=
  rfl

theorem record_failures_succ (s : PoolState) (now : ℚ) :
    (_record_circuit_failure s now).metrics.circuit_failures =
      s.metrics.circuit_failures + 1 := by
  simp only [_record_circuit_failure]
  split
  · split <;> simp
  · simp

theorem record_frame (s : PoolState) (now : ℚ) :
    (_record_circuit_failure s now).pool = s.pool ∧
    (_record_circuit_failure s now).overflow_count = s.overflow_count ∧
    (_record_circuit_failure s now).metrics.overflow_connections =
      s.metrics.overflow_connections ∧
    (_record_circuit_failure s now).metrics.total_errors = s.metrics.total_errors ∧
    (_record_circuit_failure s now).timestamps = s.timestamps ∧
    cfgPreserved s (_record_circuit_failure s now) := by
  simp only [_record_circuit_failure, cfgPreserved]
  split
  · split <;> simp
  · simp

theorem check_circuit_ok_cases (s s' : PoolState) (now : ℚ)
    (h : _check_circuit s now = Except.ok s') :
    s' = s ∨
    s' = { s with metrics := { s.metrics with circuit_state := CircuitState.HALF_OPEN } } := by
  simp only [_check_circuit] at h
  split at h
  · split at h
    · exact absurd h (by simp)
    · split at h
      · right; simpa using h.symm
      · exact absurd h (by simp)
  · left; simpa using h.symm

end Frostel

namespace Frostel

/-! ## Lemmas about the retry factory -/

theorem createGo_frame (f : Nat → Except PyError Conn) (now : ℚ) (maxr : Nat) :
    ∀ fuel attempt last s,
      (createGo f now maxr fuel attempt last s).2.1.pool = s.pool ∧
      (createGo f now maxr fuel attempt last s).2.1.overflow_count = s.overflow_count ∧
      (createGo f now maxr fuel attempt last s).2.1.metrics.overflow_connections =
        s.metrics.overflow_connections ∧
      cfgPreserved s (createGo f now maxr fuel attempt last s).2.1 := by
  intro fuel
  induction fuel with
  | zero =>
    intro attempt last s
    simp only [createGo]
    obtain ⟨h1, h2, h3, h4⟩ := record_frame (bumpErrors s) now
    simp only [bumpErrors] at h1 h2 h3 h4
    refine ⟨by simpa using h1, by simpa using h2, by simpa using h3, ?_⟩
    simp only [cfgPreserved] at h4 ⊢
    simpa using h4.2.2
  | succ fuel ih =>
    intro attempt last s
    simp only [createGo]
    cases hf : f attempt with
    | ok c =>
      simp only []
      split <;> simp [cfgPreserved]
    | error e =>
      simp only []
      split
      · exact ih (attempt + 1) (some e) s
      · exact ih (attempt + 1) (some e) s

end Frostel

namespace Frostel

theorem createGo_ok_preserves (f : Nat → Except PyError Conn) (now : ℚ) (maxr : Nat) :
    ∀ fuel attempt last s c s' tr,
      createGo f now maxr fuel attempt last s = (Except.ok c, s', tr) →
      s'.metrics.total_errors = s.metrics.total_errors ∧
      s'.metrics.circuit_failures = s.metrics.circuit_failures ∧
      s'.metrics.circuit_state = s.metrics.circuit_state ∧
      s'.metrics.circuit_opened_at = s.metrics.circuit_opened_at ∧
      s'.timestamps = tsInsert c.cid now s.timestamps := by
  intro fuel
  induction fuel with
  | zero =>
    intro attempt last s c s' tr h
    simp only [createGo, Prod.mk.injEq] at h
    exact absurd h.1 (by simp)
  | succ fuel ih =>
    intro attempt last s c s' tr h
    cases hf : f attempt with
    | ok c0 =>
      simp only [createGo, hf] at h
      split at h <;>
      · simp only [Prod.mk.injEq, Except.ok.injEq] at h
        obtain ⟨rfl, hs, htr⟩ := h
        subst hs
        simp
    | error e =>
      obtain ⟨res, s2, tr2, hrec⟩ :
          ∃ res s2 tr2, createGo f now maxr fuel (attempt + 1) (some e) s = (res, s2, tr2) :=
        ⟨_, _, _, rfl⟩
      simp only [createGo, hf, hrec] at h
      split at h <;>
      · simp only [Prod.mk.injEq] at h
        obtain ⟨h1, h2, h3⟩ := h
        subst h1; subst h2
        exact ih (attempt + 1) (some e) s c s2 tr2 hrec

end Frostel

namespace Frostel

theorem createGo_success (f : Nat → Except PyError Conn) (now : ℚ) (maxr : Nat) (c : Conn) :
    ∀ k (E : Nat → PyError) fuel attempt last s,
      k < fuel → attempt + fuel = maxr →
      (∀ i, i < k → f (attempt + i) = Except.error (E i)) →
      f (attempt + k) = Except.ok c →
      createGo f now maxr fuel attempt last s =
        (Except.ok c,
         (if 0 < attempt + k then
            { s with
              timestamps := tsInsert c.cid now s.timestamps,
              metrics := { s.metrics with
                total_connections_created := s.metrics.total_connections_created + 1,
                idle_connections := s.metrics.idle_connections + 1,
                total_retries := s.metrics.total_retries + (attempt + k) } }
          else
            { s with
              timestamps := tsInsert c.cid now s.timestamps,
              metrics := { s.metrics with
                total_connections_created := s.metrics.total_connections_created + 1,
                idle_connections := s.metrics.idle_connections + 1 } }),
         backoffTrace attempt k ++ [Event.connectSuccess c.cid]) := by
  intro k
  induction k with
  | zero =>
    intro E fuel attempt last s hk hsum hfail hok
    cases fuel with
    | zero => omega
    | succ fuel =>
      simp only [Nat.add_zero] at hok
      simp only [createGo, hok, backoffTrace, List.nil_append]
      split <;> split <;> first | rfl | omega
  | succ k ih =>
    intro E fuel attempt last s hk hsum hfail hok
    cases fuel with
    | zero => omega
    | succ fuel =>
      have h0 : f attempt = Except.error (E 0) := by
        simpa using hfail 0 (Nat.succ_pos k)
      have hlt : attempt < maxr - 1 := by omega
      have hrec := ih (fun i => E (i + 1)) fuel (attempt + 1) (some (E 0)) s
        (by omega) (by omega)
        (fun i hi => by
          have := hfail (i + 1) (by omega)
          simpa [Nat.add_assoc, Nat.add_comm 1 i] using this)
        (by
          have : attempt + 1 + k = attempt + (k + 1) := by omega
          rw [this]; exact hok)
      have harith : attempt + 1 + k = attempt + (k + 1) := by omega
      rw [harith] at hrec
      simp only [createGo, h0, hrec, backoffTrace, List.cons_append]
      split
      · rfl
      · omega

end Frostel

namespace Frostel

theorem createGo_fail (f : Nat → Except PyError Conn) (now : ℚ) (maxr : Nat)
    (E : Nat → PyError) :
    ∀ fuel attempt last s,
      0 < fuel → attempt + fuel = maxr →
      (∀ i, attempt ≤ i → i < maxr → f i = Except.error (E i)) →
      createGo f now maxr fuel attempt last s =
        (Except.error (E (maxr - 1)),
         _record_circuit_failure (bumpErrors s) now,
         backoffTrace attempt (fuel - 1) ++ [Event.connectFail]) := by
  intro fuel
  induction fuel with
  | zero => intro attempt last s h; omega
  | succ fuel ih =>
    intro attempt last s _ hsum hf
    have h0 : f attempt = Except.error (E attempt) :=
      hf attempt (Nat.le_refl attempt) (by omega)
    by_cases hfuel : 0 < fuel
    · have hlt : attempt < maxr - 1 := by omega
      have hrec := ih (attempt + 1) (some (E attempt)) s hfuel (by omega)
        (fun i hi1 hi2 => hf i (by omega) hi2)
      have hf1 : fuel - 1 + 1 = fuel := by omega
      simp only [createGo, h0, hrec, List.cons_append, Nat.add_sub_cancel]
      split
      · obtain ⟨m, hm⟩ : ∃ m, fuel = m + 1 := ⟨fuel - 1, by omega⟩
        subst hm
        simp [backoffTrace, List.cons_append]
      · omega
    · have hfe : fuel = 0 := by omega
      subst hfe
      have hlast : attempt = maxr - 1 := by omega
      simp only [createGo, h0]
      split
      · omega
      · simp [bumpErrors, backoffTrace, hlast]

end Frostel

namespace Frostel

theorem createGo_no_tx (f : Nat → Except PyError Conn) (now : ℚ) (maxr : Nat) :
    ∀ fuel attempt last s (x : Nat),
      Event.commit x ∉ (createGo f now maxr fuel attempt last s).2.2 ∧
      Event.rollback x ∉ (createGo f now maxr fuel attempt last s).2.2 ∧
      Event.enqueue x ∉ (createGo f now maxr fuel attempt last s).2.2 := by
  intro fuel
  induction fuel with
  | zero => intro attempt last s x; simp [createGo]
  | succ fuel ih =>
    intro attempt last s x
    cases hf : f attempt with
    | ok c0 =>
      simp [createGo, hf]
    | error e =>
      obtain ⟨hc, hr, he⟩ := ih (attempt + 1) (some e) s x
      simp only [createGo, hf]
      split <;> simp [hc, hr, he]

end Frostel

namespace Frostel

theorem createRetry_frame (s : PoolState) (f : Nat → Except PyError Conn) (now : ℚ) :
    (_create_connection_with_retry s f now).2.1.pool = s.pool ∧
    (_create_connection_with_retry s f now).2.1.overflow_count = s.overflow_count ∧
    (_create_connection_with_retry s f now).2.1.metrics.overflow_connections =
      s.metrics.overflow_connections ∧
    cfgPreserved s (_create_connection_with_retry s f now).2.1 := by
  simpa [_create_connection_with_retry] using
    createGo_frame f now s.max_retry_attempts s.max_retry_attempts 0 none s

theorem createRetry_ok_preserves (s : PoolState) (f : Nat → Except PyError Conn)
    (now : ℚ) (c : Conn) (s' : PoolState) (tr : List Event)
    (h : _create_connection_with_retry s f now = (Except.ok c, s', tr)) :
    s'.metrics.total_errors = s.metrics.total_errors ∧
    s'.metrics.circuit_failures = s.metrics.circuit_failures ∧
    s'.metrics.circuit_state = s.metrics.circuit_state ∧
    s'.metrics.circuit_opened_at = s.metrics.circuit_opened_at ∧
    s'.timestamps = tsInsert c.cid now s.timestamps :=
  createGo_ok_preserves f now s.max_retry_attempts s.max_retry_attempts 0 none s c s' tr
    (by simpa [_create_connection_with_retry] using h)

theorem createRetry_no_tx (s : PoolState) (f : Nat → Except PyError Conn) (now : ℚ)
    (x : Nat) :
    Event.commit x ∉ (_create_connection_with_retry s f now).2.2 ∧
    Event.rollback x ∉ (_create_connection_with_retry s f now).2.2 ∧
    Event.enqueue x ∉ (_create_connection_with_retry s f now).2.2 := by
  simpa [_create_connection_with_retry] using
    createGo_no_tx f now s.max_retry_attempts s.max_retry_attempts 0 none s x

theorem _get_connection_ok_shape (s : PoolState) (f : Nat → Except PyError Conn)
    (now : ℚ) (c : Conn) (s' : PoolState) (tr : List Event)
    (h : _get_connection s f now = (Except.ok c, s', tr)) :
    cfgPreserved s s' ∧
    ((s'.overflow_count = s.overflow_count ∧
      s'.metrics.overflow_connections = s.metrics.overflow_connections ∧
      s.pool.length = s'.pool.length + 1) ∨
     (s.pool = [] ∧ s'.pool = [] ∧ s.overflow_count < (s.max_overflow : Int) ∧
      s'.overflow_count = s.overflow_count + 1 ∧
      s'.metrics.overflow_connections = s.overflow_count + 1)) := by
  cases hp : s.pool with
  | nil =>
    simp only [_get_connection, queue_get, hp] at h
    split at h
    case isTrue hov =>
      obtain ⟨res, s2, tr2, hrec⟩ :
          ∃ a b c2, _create_connection_with_retry
            { s with pool := [], overflow_count := s.overflow_count + 1,
                     metrics := { s.metrics with
                       overflow_connections := s.overflow_count + 1 } } f now = (a, b, c2) :=
        ⟨_, _, _, rfl⟩
      rw [hrec] at h
      simp only [Prod.mk.injEq] at h
      obtain ⟨h1, h2, h3⟩ := h
      subst h2
      have hfr := createRetry_frame
        { s with pool := [], overflow_count := s.overflow_count + 1,
                 metrics := { s.metrics with
                   overflow_connections := s.overflow_count + 1 } } f now
      rw [hrec] at hfr
      obtain ⟨hfp, hfo, hfg, hfc⟩ := hfr
      simp only at hfp hfo hfg
      refine ⟨?_, Or.inr ⟨rfl, by simp [hfp], by exact_mod_cast hov, by rw [hfo], by rw [hfg]⟩⟩
      simp only [cfgPreserved] at hfc ⊢
      simpa using hfc
    case isFalse hov =>
      simp only [queue_get, Prod.mk.injEq] at h
      exact absurd h.1 (by simp)
  | cons c0 rest =>
    simp only [_get_connection, queue_get, hp] at h
    split at h
    · obtain ⟨res, s2, tr2, hrec⟩ :
          ∃ a b c2, _create_connection_with_retry
            { s with pool := rest,
                     metrics := { s.metrics with
                       total_connections_closed := s.metrics.total_connections_closed + 1 },
                     timestamps := tsPop c0.cid s.timestamps } f now = (a, b, c2) :=
        ⟨_, _, _, rfl⟩
      rw [hrec] at h
      have hfr := createRetry_frame
        { s with pool := rest,
                 metrics := { s.metrics with
                   total_connections_closed := s.metrics.total_connections_closed + 1 },
                 timestamps := tsPop c0.cid s.timestamps } f now
      rw [hrec] at hfr
      obtain ⟨hfp, hfo, hfg, hfc⟩ := hfr
      simp only at hfp hfo hfg
      cases res with
      | ok c2 =>
        simp only [Prod.mk.injEq] at h
        obtain ⟨h1, h2, h3⟩ := h
        subst h2
        refine ⟨?_, Or.inl ⟨by rw [hfo], by rw [hfg], by simp [hfp, hp]⟩⟩
        simp only [cfgPreserved] at hfc ⊢
        simpa using hfc
      | error e =>
        simp only [Prod.mk.injEq] at h
        exact absurd h.1 (by simp)
    · simp only [Prod.mk.injEq] at h
      obtain ⟨h1, h2, h3⟩ := h
      subst h2
      exact ⟨by simp [cfgPreserved], Or.inl ⟨rfl, rfl, by simp [hp]⟩⟩

end Frostel

namespace Frostel

theorem _get_connection_err_shape (s : PoolState) (f : Nat → Except PyError Conn)
    (now : ℚ) (e : PyError) (s' : PoolState) (tr : List Event)
    (h : _get_connection s f now = (Except.error e, s', tr)) :
    cfgPreserved s s' ∧
    ((s'.overflow_count = s.overflow_count ∧
      s'.metrics.overflow_connections = s.metrics.overflow_connections ∧
      s'.pool.length ≤ s.pool.length) ∨
     (s.pool = [] ∧ s'.pool = [] ∧ s.overflow_count < (s.max_overflow : Int) ∧
      s'.overflow_count = s.overflow_count + 1 ∧
      s'.metrics.overflow_connections = s.overflow_count + 1)) := by
  cases hp : s.pool with
  | nil =>
    simp only [_get_connection, queue_get, hp] at h
    split at h
    case isTrue hov =>
      obtain ⟨res, s2, tr2, hrec⟩ :
          ∃ a b c2, _create_connection_with_retry
            { s with pool := [], overflow_count := s.overflow_count + 1,
                     metrics := { s.metrics with
                       overflow_connections := s.overflow_count + 1 } } f now = (a, b, c2) :=
        ⟨_, _, _, rfl⟩
      rw [hrec] at h
      simp only [Prod.mk.injEq] at h
      obtain ⟨h1, h2, h3⟩ := h
      subst h2
      have hfr := createRetry_frame
        { s with pool := [], overflow_count := s.overflow_count + 1,
                 metrics := { s.metrics with
                   overflow_connections := s.overflow_count + 1 } } f now
      rw [hrec] at hfr
      obtain ⟨hfp, hfo, hfg, hfc⟩ := hfr
      simp only at hfp hfo hfg
      refine ⟨?_, Or.inr ⟨rfl, by simp [hfp], by exact_mod_cast hov, by rw [hfo], by rw [hfg]⟩⟩
      simp only [cfgPreserved] at hfc ⊢
      simpa using hfc
    case isFalse hov =>
      simp only [queue_get, Prod.mk.injEq] at h
      obtain ⟨h1, h2, h3⟩ := h
      subst h2
      exact ⟨by simp [cfgPreserved], Or.inl ⟨rfl, rfl, by simp [hp]⟩⟩
  | cons c0 rest =>
    simp only [_get_connection, queue_get, hp] at h
    split at h
    · obtain ⟨res, s2, tr2, hrec⟩ :
          ∃ a b c2, _create_connection_with_retry
            { s with pool := rest,
                     metrics := { s.metrics with
                       total_connections_closed := s.metrics.total_connections_closed + 1 },
                     timestamps := tsPop c0.cid s.timestamps } f now = (a, b, c2) :=
        ⟨_, _, _, rfl⟩
      rw [hrec] at h
      have hfr := createRetry_frame
        { s with pool := rest,
                 metrics := { s.metrics with
                   total_connections_closed := s.metrics.total_connections_closed + 1 },
                 timestamps := tsPop c0.cid s.timestamps } f now
      rw [hrec] at hfr
      obtain ⟨hfp, hfo, hfg, hfc⟩ := hfr
      simp only at hfp hfo hfg
      cases res with
      | ok c2 =>
        simp only [Prod.mk.injEq] at h
        exact absurd h.1 (by simp)
      | error e2 =>
        simp only [Prod.mk.injEq] at h
        obtain ⟨h1, h2, h3⟩ := h
        subst h2
        refine ⟨?_, Or.inl ⟨by simpa using hfo, by simpa using hfg, by simp [hfp, hp]⟩⟩
        simp only [cfgPreserved] at hfc ⊢
        simpa using hfc
    · simp only [Prod.mk.injEq] at h
      exact absurd h.1 (by simp)

theorem _get_connection_ok_preserves (s : PoolState) (f : Nat → Except PyError Conn)
    (now : ℚ) (c : Conn) (s' : PoolState) (tr : List Event)
    (h : _get_connection s f now = (Except.ok c, s', tr)) :
    s'.metrics.total_errors = s.metrics.total_errors ∧
    s'.metrics.circuit_failures = s.metrics.circuit_failures ∧
    s'.metrics.circuit_state = s.metrics.circuit_state ∧
    s'.metrics.circuit_opened_at = s.metrics.circuit_opened_at := by
  cases hp : s.pool with
  | nil =>
    simp only [_get_connection, queue_get, hp] at h
    split at h
    case isTrue hov =>
      have hpre := createRetry_ok_preserves
        { s with pool := [], overflow_count := s.overflow_count + 1,
                 metrics := { s.metrics with
                   overflow_connections := s.overflow_count + 1 } } f now c s' tr h
      simpa using ⟨hpre.1, hpre.2.1, hpre.2.2.1, hpre.2.2.2.1⟩
    case isFalse hov =>
      simp only [queue_get, Prod.mk.injEq] at h
      exact absurd h.1 (by simp)
  | cons c0 rest =>
    simp only [_get_connection, queue_get, hp] at h
    split at h
    · obtain ⟨res, s2, tr2, hrec⟩ :
          ∃ a b c2, _create_connection_with_retry
            { s with pool := rest,
                     metrics := { s.metrics with
                       total_connections_closed := s.metrics.total_connections_closed + 1 },
                     timestamps := tsPop c0.cid s.timestamps } f now = (a, b, c2) :=
        ⟨_, _, _, rfl⟩
      rw [hrec] at h
      cases res with
      | ok c2 =>
        simp only [Prod.mk.injEq] at h
        obtain ⟨h1, h2, h3⟩ := h
        subst h2
        have hpre := createRetry_ok_preserves
          { s with pool := rest,
                   metrics := { s.metrics with
                     total_connections_closed := s.metrics.total_connections_closed + 1 },
                   timestamps := tsPop c0.cid s.timestamps } f now c2 s2 tr2 hrec
        simpa using ⟨hpre.1, hpre.2.1, hpre.2.2.1, hpre.2.2.2.1⟩
      | error e2 =>
        simp only [Prod.mk.injEq] at h
        exact absurd h.1 (by simp)
    · simp only [Prod.mk.injEq] at h
      obtain ⟨h1, h2, h3⟩ := h
      subst h2
      simp

theorem _get_connection_no_tx (s : PoolState) (f : Nat → Except PyError Conn)
    (now : ℚ) (x : Nat) :
    Event.commit x ∉ (_get_connection s f now).2.2 ∧
    Event.rollback x ∉ (_get_connection s f now).2.2 ∧
    Event.enqueue x ∉ (_get_connection s f now).2.2 := by
  cases hp : s.pool with
  | nil =>
    simp only [_get_connection, queue_get, hp]
    split
    case isTrue hov =>
      exact createRetry_no_tx _ f now x
    case isFalse hov =>
      simp [queue_get]
  | cons c0 rest =>
    simp only [_get_connection, queue_get, hp]
    split
    · obtain ⟨res, s2, tr2, hrec⟩ :
          ∃ a b c2, _create_connection_with_retry
            { s with pool := rest,
                     metrics := { s.metrics with
                       total_connections_closed := s.metrics.total_connections_closed + 1 },
                     timestamps := tsPop c0.cid s.timestamps } f now = (a, b, c2) :=
        ⟨_, _, _, rfl⟩
      have hnt := createRetry_no_tx
        { s with pool := rest,
                 metrics := { s.metrics with
                   total_connections_closed := s.metrics.total_connections_closed + 1 },
                 timestamps := tsPop c0.cid s.timestamps } f now x
      rw [hrec] at hnt ⊢
      cases res <;> simpa using hnt
    · simp

theorem _return_connection_shape (s : PoolState) (c : Conn) :
    cfgPreserved s (_return_connection s c).1 ∧
    (_return_connection s c).1.metrics.total_errors = s.metrics.total_errors ∧
    (_return_connection s c).1.metrics.circuit_failures = s.metrics.circuit_failures ∧
    (_return_connection s c).1.metrics.circuit_state = s.metrics.circuit_state ∧
    (_return_connection s c).1.metrics.circuit_opened_at = s.metrics.circuit_opened_at ∧
    ((¬(0 < s.pool_size ∧ s.pool_size ≤ s.pool.length) ∧
      (_return_connection s c).1.pool = s.pool ++ [c] ∧
      (_return_connection s c).1.overflow_count = s.overflow_count ∧
      (_return_connection s c).1.metrics.overflow_connections =
        s.metrics.overflow_connections) ∨
     ((0 < s.pool_size ∧ s.pool_size ≤ s.pool.length) ∧
      (_return_connection s c).1.pool = s.pool ∧
      (_return_connection s c).1.overflow_count = s.overflow_count - 1 ∧
      (_return_connection s c).1.metrics.overflow_connections = s.overflow_count - 1)) := by
  by_cases hfull : 0 < s.pool_size ∧ s.pool_size ≤ s.pool.length
  · simp [_return_connection, queue_put, hfull, cfgPreserved]
  · simp [_return_connection, queue_put, hfull, cfgPreserved]

end Frostel

namespace Frostel

/-! ## Helper lemmas for the circuit-breaker claims -/

theorem iterFailures_last (now : ℚ) :
    ∀ k s, iterFailures now (k + 1) s =
      _record_circuit_failure (iterFailures now k s) now := by
  intro k
  induction k with
  | zero => intro s; rfl
  | succ k ih =>
    intro s
    show iterFailures now (k + 1) (_record_circuit_failure s now) = _
    rw [ih]
    rfl

theorem iterFailures_closed (now : ℚ) :
    ∀ k s, s.metrics.circuit_state = CircuitState.CLOSED →
      s.metrics.circuit_failures + k < s.circuit_failure_threshold →
      (iterFailures now k s).metrics.circuit_state = CircuitState.CLOSED ∧
      (iterFailures now k s).metrics.circuit_failures = s.metrics.circuit_failures + k ∧
      (iterFailures now k s).circuit_failure_threshold = s.circuit_failure_threshold := by
  intro k
  induction k with
  | zero => intro s hcs hk; exact ⟨hcs, rfl, rfl⟩
  | succ k ih =>
    intro s hcs hk
    have hnotyet : ¬ s.circuit_failure_threshold ≤ s.metrics.circuit_failures + 1 := by omega
    have hrec : _record_circuit_failure s now =
        { s with metrics := { s.metrics with
            circuit_failures := s.metrics.circuit_failures + 1 } } := by
      simp [_record_circuit_failure, hnotyet]
    have hth := ih (_record_circuit_failure s now)
      (by rw [hrec]; simpa using hcs)
      (by rw [hrec]; simp; omega)
    refine ⟨hth.1, ?_, ?_⟩
    · show (iterFailures now k (_record_circuit_failure s now)).metrics.circuit_failures =
        s.metrics.circuit_failures + (k + 1)
      rw [hth.2.1, record_failures_succ]
      omega
    · show (iterFailures now k (_record_circuit_failure s now)).circuit_failure_threshold =
        s.circuit_failure_threshold
      rw [hth.2.2, hrec]

/-! ## Settled claims -/

/-- C10: the `get_pool` guard tests the imported `multiprocessing.pool` module,
which is never `None`, so `get_pool` always returns the current value of the
`_pool` singleton — in particular it returns `None` when the pool was never
initialised — and the `RuntimeError` branch is unreachable. -/
theorem C10_get_pool_guard_never_fires :
    (∀ p : Option PoolState, get_pool p = Except.ok p) ∧
    get_pool none = Except.ok none ∧
    pool_module_import ≠ none ∧
    (∀ p : Option PoolState, get_pool p ≠ Except.error PyError.runtimeError) := by
  refine ⟨fun p => rfl, rfl, by simp [pool_module_import], fun p => by simp [get_pool, pool_module_import]⟩

/-- C2: at the start of a scoped checkout, `_check_circuit` is fail-fast: with
the circuit OPEN and the elapsed time since `circuit_opened_at` not exceeding
`circuit_timeout`, it raises the circuit-open error carrying
`circuit_timeout - elapsed` as the retry-after hint, and the scoped checkout
returns that error with the state unchanged and no connection attempt (empty
event trace); with the circuit OPEN and the elapsed time strictly larger, the
state moves to HALF_OPEN and the call proceeds; with the circuit CLOSED or
HALF_OPEN the check passes with no change. -/
theorem C2_check_circuit_fail_fast (s : PoolState) (now t : ℚ) :
    (s.metrics.circuit_state = CircuitState.OPEN →
      s.metrics.circuit_opened_at = some t →
      ((now - t ≤ s.circuit_timeout →
         _check_circuit s now =
           Except.error (PyError.circuitBreaker (s.circuit_timeout - (now - t))) ∧
         ∀ f x w, get_connection s now f x w =
           (Except.error (PyError.circuitBreaker (s.circuit_timeout - (now - t))), s, [])) ∧
       (s.circuit_timeout < now - t →
         _check_circuit s now = Except.ok
           { s with metrics :=
             { s.metrics with circuit_state := CircuitState.HALF_OPEN } }))) ∧
    ((s.metrics.circuit_state = CircuitState.CLOSED ∨
      s.metrics.circuit_state = CircuitState.HALF_OPEN) →
      _check_circuit s now = Except.ok s) := by
  constructor
  · intro hopen hoat
    constructor
    · intro hle
      have hcc : _check_circuit s now =
          Except.error (PyError.circuitBreaker (s.circuit_timeout - (now - t))) := by
        simp [_check_circuit, hopen, hoat, not_lt.mpr hle]
      exact ⟨hcc, fun f x w => by simp [get_connection, hcc]⟩
    · intro hlt
      simp [_check_circuit, hopen, hoat, hlt]
  · intro hcs
    rcases hcs with h | h <;> simp [_check_circuit, h]

/-- C2 witness: with the circuit OPEN since time 0, timeout 60 and the clock
at 10, the check raises the circuit-open error with retry hint 50. -/
theorem C2_check_circuit_fail_fast_witness :
    _check_circuit demoOpen 10 = Except.error (PyError.circuitBreaker 50) := by
  have h := (C2_check_circuit_fail_fast demoOpen 10 0).1 (by decide) (by decide)
  have h2 := (h.1 (by norm_num [demoOpen, demoPool, demoBase, mkInitialState])).1
  have hval : demoOpen.circuit_timeout - (10 - 0) = (50 : ℚ) := by
    norm_num [demoOpen, demoPool, demoBase, mkInitialState]
  rw [hval] at h2
  exact h2

/-- C3: `_record_circuit_failure` increments the failure counter on every
recorded creation failure, and when the incremented counter reaches
`circuit_failure_threshold` while the circuit is not already OPEN, the
circuit opens and `circuit_opened_at` is stamped with the current time; in
particular, after exactly `circuit_failure_threshold` recorded failures from
a fresh breaker the circuit is OPEN with `circuit_opened_at` set. -/
theorem C3_record_circuit_failure_opens :
    (∀ (s : PoolState) (now : ℚ),
       (_record_circuit_failure s now).metrics.circuit_failures =
         s.metrics.circuit_failures + 1 ∧
       (s.circuit_failure_threshold ≤ s.metrics.circuit_failures + 1 →
        s.metrics.circuit_state ≠ CircuitState.OPEN →
        (_record_circuit_failure s now).metrics.circuit_state = CircuitState.OPEN ∧
        (_record_circuit_failure s now).metrics.circuit_opened_at = some now)) ∧
    (∀ (s : PoolState) (now : ℚ),
       s.metrics.circuit_state = CircuitState.CLOSED →
       s.metrics.circuit_failures = 0 →
       1 ≤ s.circuit_failure_threshold →
       (iterFailures now s.circuit_failure_threshold s).metrics.circuit_state =
         CircuitState.OPEN ∧
       (iterFailures now s.circuit_failure_threshold s).metrics.circuit_opened_at =
         some now) := by
  constructor
  · intro s now
    refine ⟨record_failures_succ s now, fun hth hst => ?_⟩
    simp only [_record_circuit_failure]
    rw [if_pos (by simpa using hth), if_pos (by simpa using hst)]
    exact ⟨rfl, rfl⟩
  · intro s now hcs hcf hth
    obtain ⟨m, hm⟩ : ∃ m, s.circuit_failure_threshold = m + 1 :=
      ⟨s.circuit_failure_threshold - 1, by omega⟩
    obtain ⟨hc1, hc2, hc3⟩ := iterFailures_closed now m s hcs (by omega)
    rw [hm, iterFailures_last]
    simp only [_record_circuit_failure]
    rw [if_pos (by omega), if_pos (by simp [hc1])]
    exact ⟨rfl, rfl⟩

/-- C3 witness: with threshold 5, five recorded failures starting from the
fresh demo pool open the circuit and stamp `circuit_opened_at`. -/
theorem C3_record_circuit_failure_opens_witness :
    (_record_circuit_failure demoPool 3).metrics.circuit_failures = 1 ∧
    (iterFailures 3 5 demoPool).metrics.circuit_state = CircuitState.OPEN ∧
    (iterFailures 3 5 demoPool).metrics.circuit_opened_at = some 3 := by
  refine ⟨(C3_record_circuit_failure_opens.1 demoPool 3).1, ?_, ?_⟩
  · exact (C3_record_circuit_failure_opens.2 demoPool 3 (by decide) (by decide) (by decide)).1
  · exact (C3_record_circuit_failure_opens.2 demoPool 3 (by decide) (by decide) (by decide)).2

end Frostel

namespace Frostel

/-- C4: `_reset_circuit` after a successful commit closes a non-CLOSED
circuit, zeroes the failure counter and clears `circuit_opened_at`; combined
with the check, once `circuit_timeout` has elapsed past `circuit_opened_at`
the next `_check_circuit` moves an OPEN circuit to HALF_OPEN, and a scoped
checkout whose unit of work then commits leaves the circuit CLOSED with the
failure counter reset to 0 and `circuit_opened_at` cleared. -/
theorem C4_commit_resets_circuit :
    (∀ s : PoolState, s.metrics.circuit_state ≠ CircuitState.CLOSED →
       (_reset_circuit s).metrics.circuit_state = CircuitState.CLOSED ∧
       (_reset_circuit s).metrics.circuit_failures = 0 ∧
       (_reset_circuit s).metrics.circuit_opened_at = none) ∧
    (∀ (s : PoolState) (now t x : ℚ) (f : Nat → Except PyError Conn)
       (c : Conn) (s2 : PoolState) (tr : List Event),
       s.metrics.circuit_state = CircuitState.OPEN →
       s.metrics.circuit_opened_at = some t →
       s.circuit_timeout < now - t →
       _get_connection { s with metrics :=
         { s.metrics with circuit_state := CircuitState.HALF_OPEN } } f now =
           (Except.ok c, s2, tr) →
       _check_circuit s now = Except.ok { s with metrics :=
         { s.metrics with circuit_state := CircuitState.HALF_OPEN } } ∧
       (get_connection s now f x (Except.ok Unit.unit)).1 = Except.ok Unit.unit ∧
       (get_connection s now f x (Except.ok Unit.unit)).2.1.metrics.circuit_state =
         CircuitState.CLOSED ∧
       (get_connection s now f x (Except.ok Unit.unit)).2.1.metrics.circuit_failures = 0 ∧
       (get_connection s now f x (Except.ok Unit.unit)).2.1.metrics.circuit_opened_at =
         none) := by
  have part1 : ∀ s : PoolState, s.metrics.circuit_state ≠ CircuitState.CLOSED →
      (_reset_circuit s).metrics.circuit_state = CircuitState.CLOSED ∧
      (_reset_circuit s).metrics.circuit_failures = 0 ∧
      (_reset_circuit s).metrics.circuit_opened_at = none := by
    intro s h
    simp [_reset_circuit, h]
  refine ⟨part1, ?_⟩
  intro s now t x f c s2 tr hopen hoat hlt hacq
  have hcc : _check_circuit s now = Except.ok { s with metrics :=
      { s.metrics with circuit_state := CircuitState.HALF_OPEN } } := by
    simp [_check_circuit, hopen, hoat, hlt]
  refine ⟨hcc, ?_⟩
  have hpre := _get_connection_ok_preserves _ f now c s2 tr hacq
  have hs2 : s2.metrics.circuit_state = CircuitState.HALF_OPEN := by
    rw [hpre.2.2.1]
  have hncc : (updateCheckoutMetrics s2.metrics x).circuit_state ≠ CircuitState.CLOSED := by
    simp [updateCheckoutMetrics, hs2]
  have hreset := part1 { s2 with metrics := updateCheckoutMetrics s2.metrics x }
    (by simpa using hncc)
  have hret := _return_connection_shape
    (_reset_circuit { s2 with metrics := updateCheckoutMetrics s2.metrics x }) c
  obtain ⟨hcfg, herr, hfailp, hstatep, hopenp, hdisj⟩ := hret
  simp only [get_connection, hcc, hacq, checkinMetrics]
  refine ⟨trivial, ?_, ?_, ?_⟩
  · simpa using hstatep.trans hreset.1
  · simpa using hfailp.trans hreset.2.1
  · simpa using hopenp.trans hreset.2.2

/-- C4 witness: from the demo pool with the circuit OPEN since time 0, at
time 100 (timeout 60) a checkout whose unit of work commits ends with the
circuit CLOSED, zero failures and no `circuit_opened_at`. -/
theorem C4_commit_resets_circuit_witness :
    (get_connection demoOpen 100 okOracle 7 (Except.ok Unit.unit)).1 =
      Except.ok Unit.unit ∧
    (get_connection demoOpen 100 okOracle 7
        (Except.ok Unit.unit)).2.1.metrics.circuit_state = CircuitState.CLOSED ∧
    (get_connection demoOpen 100 okOracle 7
        (Except.ok Unit.unit)).2.1.metrics.circuit_failures = 0 ∧
    (get_connection demoOpen 100 okOracle 7
        (Except.ok Unit.unit)).2.1.metrics.circuit_opened_at = none := by
  have hstale : _is_connection_stale demoHalfOpen okConn 100 = false := by
    simp [_is_connection_stale, demoHalfOpen, demoOpen, demoPool, demoBase,
      mkInitialState, okConn, List.lookup]
    norm_num
  have hq : demoHalfOpen.pool = [okConn] := by
    simp [demoHalfOpen, demoOpen, demoPool, demoBase, mkInitialState]
  have halive : _is_connection_alive okConn = true := rfl
  have hacq : _get_connection demoHalfOpen okOracle 100 =
      (Except.ok okConn, demoHalfOpenEmpty, []) := by
    simp [_get_connection, queue_get, hq, stale_pool_irrel, hstale, halive,
      demoHalfOpenEmpty]
  have h := C4_commit_resets_circuit.2 demoOpen 100 0 7 okOracle okConn
    demoHalfOpenEmpty [] (by decide) (by decide)
    (by norm_num [demoOpen, demoPool, demoBase, mkInitialState]) hacq
  exact ⟨h.2.1, h.2.2.1, h.2.2.2.1, h.2.2.2.2⟩

/-- C6: `_return_connection` first rolls back any uncommitted work (when the
connection is open), then attempts a non-blocking enqueue; when the idle
queue is not full the connection is re-pooled with the overflow counter and
timestamps untouched, and when the idle queue is full the connection is
closed, the overflow counter and gauge are decremented, the close counter is
bumped and the creation timestamp is discarded — the connection is not
retained in the pool. -/
theorem C6_release_algorithm (s : PoolState) (c : Conn) :
    (c.isOpen = true →
       ∃ rest, (_return_connection s c).2 = Event.rollback c.cid :: rest) ∧
    (¬(0 < s.pool_size ∧ s.pool_size ≤ s.pool.length) →
       (_return_connection s c).1.pool = s.pool ++ [c] ∧
       (_return_connection s c).1.overflow_count = s.overflow_count ∧
       (_return_connection s c).1.timestamps = s.timestamps ∧
       Event.enqueue c.cid ∈ (_return_connection s c).2 ∧
       Event.close c.cid ∉ (_return_connection s c).2) ∧
    ((0 < s.pool_size ∧ s.pool_size ≤ s.pool.length) →
       (_return_connection s c).1.pool = s.pool ∧
       (_return_connection s c).1.overflow_count = s.overflow_count - 1 ∧
       (_return_connection s c).1.metrics.overflow_connections = s.overflow_count - 1 ∧
       (_return_connection s c).1.metrics.total_connections_closed =
         s.metrics.total_connections_closed + 1 ∧
       ((_return_connection s c).1.timestamps).lookup c.cid = none ∧
       Event.close c.cid ∈ (_return_connection s c).2 ∧
       Event.enqueue c.cid ∉ (_return_connection s c).2) := by
  refine ⟨?_, ?_, ?_⟩
  · intro hopen
    by_cases hfull : 0 < s.pool_size ∧ s.pool_size ≤ s.pool.length
    · exact ⟨[Event.close c.cid], by simp [_return_connection, queue_put, hfull, hopen]⟩
    · exact ⟨[Event.enqueue c.cid], by simp [_return_connection, queue_put, hfull, hopen]⟩
  · intro hfull
    refine ⟨?_, ?_, ?_, ?_, ?_⟩ <;>
      simp [_return_connection, queue_put, hfull]
  · intro hfull
    refine ⟨?_, ?_, ?_, ?_, ?_, ?_, ?_⟩ <;>
      simp [_return_connection, queue_put, hfull, tsPop_lookup]

/-- C6 witness: releasing `okConn2` into the demo pool whose single slot is
already occupied closes it and decrements the overflow counter; releasing it
into an empty queue re-pools it. -/
theorem C6_release_algorithm_witness :
    (_return_connection demoPool okConn2).1.pool = demoPool.pool ∧
    (_return_connection demoPool okConn2).1.overflow_count =
      demoPool.overflow_count - 1 ∧
    Event.close okConn2.cid ∈ (_return_connection demoPool okConn2).2 := by
  have h := (C6_release_algorithm demoPool okConn2).2.2 (by decide)
  exact ⟨h.1, h.2.1, h.2.2.2.2.2.1⟩

end Frostel

namespace Frostel

/-- C7: a connection dequeued from the idle queue that is stale (its age
exceeds `pool_recycle`, or it has no recorded timestamp) or fails the
liveness probe is closed (`total_connections_closed` bumped), its creation
timestamp is discarded, and the checkout result is the fresh replacement
built by the connection factory, which carries creation timestamp `now`;
a dequeued connection that is neither stale nor dead is returned as-is; and
a connection whose recorded creation timestamp is older than `pool_recycle`
is always stale, hence never handed to the caller directly. -/
theorem C7_stale_connection_recycled (s : PoolState) (f : Nat → Except PyError Conn)
    (now : ℚ) (c0 : Conn) (rest : List Conn) (hpool : s.pool = c0 :: rest) :
    ((_is_connection_stale s c0 now || !(_is_connection_alive c0)) = true →
       ∀ c2 s3 ctr,
         _create_connection_with_retry
           { s with pool := rest,
                    metrics := { s.metrics with
                      total_connections_closed := s.metrics.total_connections_closed + 1 },
                    timestamps := tsPop c0.cid s.timestamps } f now =
             (Except.ok c2, s3, ctr) →
         _get_connection s f now = (Except.ok c2, s3, Event.close c0.cid :: ctr) ∧
         s3.timestamps.lookup c2.cid = some now) ∧
    ((_is_connection_stale s c0 now || !(_is_connection_alive c0)) = false →
       _get_connection s f now = (Except.ok c0, { s with pool := rest }, [])) ∧
    (∀ t0, s.timestamps.lookup c0.cid = some t0 → s.pool_recycle < now - t0 →
       _is_connection_stale s c0 now = true) := by
  refine ⟨?_, ?_, ?_⟩
  · intro hcond c2 s3 ctr hcr
    constructor
    · simp only [_get_connection, queue_get, hpool, stale_pool_irrel, hcond, hcr]
      simp
    · have hpre := createRetry_ok_preserves _ f now c2 s3 ctr hcr
      rw [hpre.2.2.2.2]
      exact tsInsert_lookup c2.cid now _
  · intro hcond
    simp only [_get_connection, queue_get, hpool, stale_pool_irrel, hcond]
    simp
  · intro t0 hts hage
    simp [_is_connection_stale, hts, hage]

/-- C7 witness: in a pool whose single idle connection was stamped at time 0
and with `pool_recycle` 3600, a checkout at time 5000 finds it stale, closes
it and returns the factory replacement stamped at 5000; a checkout at time 5
returns it as-is. -/
theorem C7_stale_connection_recycled_witness :
    _is_connection_stale demoPool okConn 5000 = true ∧
    (_get_connection demoPool okOracle 5).1 = Except.ok okConn ∧
    (_get_connection demoPool okOracle 5000).2.1.timestamps.lookup okConn2.cid =
      some 5000 := by
  have hpool : demoPool.pool = [okConn] := by
    simp [demoPool, demoBase, mkInitialState]
  have hts : demoPool.timestamps.lookup okConn.cid = some 0 := by
    simp [demoPool, demoBase, mkInitialState, okConn, List.lookup]
  have hstale := (C7_stale_connection_recycled demoPool okOracle 5000 okConn []
    hpool).2.2 0 hts (by norm_num [demoPool, demoBase, mkInitialState])
  have hnotstale : _is_connection_stale demoPool okConn 5 = false := by
    simp [_is_connection_stale, demoPool, demoBase, mkInitialState, okConn, List.lookup]
    norm_num
  have halive2 : _is_connection_alive okConn = true := rfl
  have hfresh := (C7_stale_connection_recycled demoPool okOracle 5 okConn []
    hpool).2.1 (by simp [hnotstale, halive2])
  obtain ⟨res, s3, ctr, hcr⟩ :
      ∃ a b c2, _create_connection_with_retry demoStaleClosed okOracle 5000 = (a, b, c2) :=
    ⟨_, _, _, rfl⟩
  have hres : res = Except.ok okConn2 ∧ ctr = [Event.connectSuccess okConn2.cid] := by
    have hthis := hcr
    simp only [_create_connection_with_retry] at hthis
    have hmra : demoStaleClosed.max_retry_attempts = 3 := by
      simp [demoStaleClosed, demoPool, demoBase, mkInitialState]
    rw [hmra] at hthis
    simp [createGo, okOracle] at hthis
    exact ⟨hthis.1.symm, hthis.2.2.symm⟩
  obtain ⟨hres1, hres2⟩ := hres
  subst hres1
  have hmain := (C7_stale_connection_recycled demoPool okOracle 5000 okConn []
    hpool).1 (by simp [hstale]) okConn2 s3 ctr hcr
  refine ⟨hstale, ?_, ?_⟩
  · rw [hfresh]
  · rw [hmain.1]
    simpa using hmain.2

end Frostel

namespace Frostel

/-- C8: the connection factory attempts up to `max_retry_attempts` times; the
event trace shows a `0.5 * 2 ^ attempt` second sleep after each failed
attempt except the last; a success at attempt `k` yields the connection with
its creation timestamp stamped, `total_connections_created` and
`idle_connections` incremented, and `total_retries` increased by the attempt
index exactly when the success was not on the first attempt; exhausting all
attempts increments `total_errors`, reports exactly one failure to the
circuit breaker and propagates the last underlying error. -/
theorem C8_retry_factory (s : PoolState) (f : Nat → Except PyError Conn) (now : ℚ)
    (E : Nat → PyError) :
    (∀ k c, k < s.max_retry_attempts →
       (∀ i, i < k → f i = Except.error (E i)) →
       f k = Except.ok c →
       _create_connection_with_retry s f now =
         (Except.ok c,
          (if 0 < k then
             { s with timestamps := tsInsert c.cid now s.timestamps,
                      metrics := { s.metrics with
                        total_connections_created :=
                          s.metrics.total_connections_created + 1,
                        idle_connections := s.metrics.idle_connections + 1,
                        total_retries := s.metrics.total_retries + k } }
           else
             { s with timestamps := tsInsert c.cid now s.timestamps,
                      metrics := { s.metrics with
                        total_connections_created :=
                          s.metrics.total_connections_created + 1,
                        idle_connections := s.metrics.idle_connections + 1 } }),
          backoffTrace 0 k ++ [Event.connectSuccess c.cid])) ∧
    (1 ≤ s.max_retry_attempts →
       (∀ i, i < s.max_retry_attempts → f i = Except.error (E i)) →
       _create_connection_with_retry s f now =
         (Except.error (E (s.max_retry_attempts - 1)),
          _record_circuit_failure (bumpErrors s) now,
          backoffTrace 0 (s.max_retry_attempts - 1) ++ [Event.connectFail]) ∧
       (_create_connection_with_retry s f now).2.1.metrics.total_errors =
         s.metrics.total_errors + 1 ∧
       (_create_connection_with_retry s f now).2.1.metrics.circuit_failures =
         s.metrics.circuit_failures + 1) := by
  constructor
  · intro k c hk hfail hok
    have h := createGo_success f now s.max_retry_attempts c k E s.max_retry_attempts
      0 none s hk (by omega) (fun i hi => by simpa using hfail i hi) (by simpa using hok)
    simpa [_create_connection_with_retry] using h
  · intro hmra hfail
    have h := createGo_fail f now s.max_retry_attempts E s.max_retry_attempts 0 none s
      (by omega) (by omega) (fun i _ hi => hfail i hi)
    have heq : _create_connection_with_retry s f now =
        (Except.error (E (s.max_retry_attempts - 1)),
         _record_circuit_failure (bumpErrors s) now,
         backoffTrace 0 (s.max_retry_attempts - 1) ++ [Event.connectFail]) := by
      simpa [_create_connection_with_retry] using h
    refine ⟨heq, ?_, ?_⟩
    · rw [heq]
      have hrf := record_frame (bumpErrors s) now
      simpa [bumpErrors] using hrf.2.2.2.1
    · rw [heq]
      have hrf := record_failures_succ (bumpErrors s) now
      simpa [bumpErrors] using hrf

/-- C8 witness: with all three attempts failing, the factory sleeps 0.5 s and
1 s between attempts, returns the last error, bumps `total_errors` and
records one circuit failure; with an immediately successful attempt the
trace is a single successful connect. -/
theorem C8_retry_factory_witness :
    _create_connection_with_retry demoBase failOracle 0 =
      (Except.error (PyError.dbError 2),
       _record_circuit_failure (bumpErrors demoBase) 0,
       [Event.connectFail, Event.sleep (1 / 2), Event.connectFail, Event.sleep 1,
        Event.connectFail]) ∧
    (_create_connection_with_retry demoBase failOracle 0).2.1.metrics.total_errors =
      demoBase.metrics.total_errors + 1 ∧
    (_create_connection_with_retry demoBase failOracle 0).2.1.metrics.circuit_failures =
      demoBase.metrics.circuit_failures + 1 ∧
    (_create_connection_with_retry demoPool okOracle 5).2.2 =
      [Event.connectSuccess okConn2.cid] := by
  have hmra : demoBase.max_retry_attempts = 3 := by
    simp [demoBase, mkInitialState]
  have h := (C8_retry_factory demoBase failOracle 0 (fun i => PyError.dbError i)).2
    (by rw [hmra]; omega) (fun i _ => rfl)
  have htr : backoffTrace 0 (demoBase.max_retry_attempts - 1) ++ [Event.connectFail] =
      [Event.connectFail, Event.sleep (1 / 2), Event.connectFail, Event.sleep 1,
       Event.connectFail] := by
    rw [hmra]
    norm_num [backoffTrace, _calculate_backoff_delay]
  refine ⟨?_, h.2.1, h.2.2, ?_⟩
  · rw [h.1, htr, hmra]
  · have hs := (C8_retry_factory demoPool okOracle 5 (fun i => PyError.dbError i)).1
      0 okConn2 (by simp [demoPool, demoBase, mkInitialState]) (by omega) rfl
    rw [hs]
    simp [backoffTrace]

end Frostel

namespace Frostel

theorem _return_connection_timing (s : PoolState) (c : Conn) :
    (_return_connection s c).1.metrics.avg_checkout_time_ms =
      s.metrics.avg_checkout_time_ms ∧
    (_return_connection s c).1.metrics.max_checkout_time_ms =
      s.metrics.max_checkout_time_ms ∧
    (_return_connection s c).1.metrics.total_checkouts = s.metrics.total_checkouts := by
  by_cases hfull : 0 < s.pool_size ∧ s.pool_size ≤ s.pool.length <;>
    simp [_return_connection, queue_put, hfull]

theorem _return_connection_errors (t : PoolState) (c : Conn) :
    (_return_connection t c).1.metrics.total_errors = t.metrics.total_errors ∧
    (_return_connection t c).1.metrics.circuit_failures = t.metrics.circuit_failures := by
  by_cases hfull : 0 < t.pool_size ∧ t.pool_size ≤ t.pool.length <;>
    simp [_return_connection, queue_put, hfull]

theorem _reset_circuit_timing (s : PoolState) :
    (_reset_circuit s).metrics.avg_checkout_time_ms = s.metrics.avg_checkout_time_ms ∧
    (_reset_circuit s).metrics.max_checkout_time_ms = s.metrics.max_checkout_time_ms ∧
    (_reset_circuit s).metrics.total_checkouts = s.metrics.total_checkouts := by
  by_cases h : s.metrics.circuit_state ≠ CircuitState.CLOSED <;>
    simp [_reset_circuit, h]

end Frostel

namespace Frostel

/-! ## Lemmas for the running checkout-latency statistics -/

theorem foldl_update_checkouts (xs : List ℚ) :
    ∀ m : ConnectionMetrics,
      (List.foldl updateCheckoutMetrics m xs).total_checkouts =
        m.total_checkouts + xs.length := by
  induction xs with
  | nil => intro m; simp
  | cons x xs ih =>
    intro m
    rw [List.foldl_cons, ih (updateCheckoutMetrics m x)]
    have hu : (updateCheckoutMetrics m x).total_checkouts = m.total_checkouts + 1 := by
      simp [updateCheckoutMetrics]
    rw [hu]
    simp
    omega

theorem foldl_update_avg (xs : List ℚ) :
    ∀ m : ConnectionMetrics,
      (List.foldl updateCheckoutMetrics m xs).avg_checkout_time_ms *
        ((List.foldl updateCheckoutMetrics m xs).total_checkouts : ℚ) =
      m.avg_checkout_time_ms * (m.total_checkouts : ℚ) + xs.sum := by
  induction xs with
  | nil => intro m; simp
  | cons x xs ih =>
    intro m
    have hstep : (updateCheckoutMetrics m x).avg_checkout_time_ms *
        ((updateCheckoutMetrics m x).total_checkouts : ℚ) =
        m.avg_checkout_time_ms * (m.total_checkouts : ℚ) + x := by
      have hn : ((m.total_checkouts + 1 : Nat) : ℚ) ≠ 0 := by
        exact_mod_cast Nat.succ_ne_zero m.total_checkouts
      simp only [updateCheckoutMetrics]
      rw [div_mul_cancel₀ _ hn]
      push_cast
      ring
    have := ih (updateCheckoutMetrics m x)
    simp only [List.foldl_cons, this, hstep, List.sum_cons]
    ring

theorem foldl_update_max (xs : List ℚ) :
    ∀ m : ConnectionMetrics,
      (List.foldl updateCheckoutMetrics m xs).max_checkout_time_ms =
        List.foldl max m.max_checkout_time_ms xs := by
  induction xs with
  | nil => intro m; simp
  | cons x xs ih =>
    intro m
    rw [List.foldl_cons, ih (updateCheckoutMetrics m x)]
    have hu : (updateCheckoutMetrics m x).max_checkout_time_ms =
        max m.max_checkout_time_ms x := by
      simp [updateCheckoutMetrics]
    rw [hu, List.foldl_cons]

theorem foldl_max_bounds (xs : List ℚ) :
    ∀ a : ℚ, a ≤ List.foldl max a xs ∧ ∀ x ∈ xs, x ≤ List.foldl max a xs := by
  induction xs with
  | nil => intro a; simp
  | cons x xs ih =>
    intro a
    obtain ⟨h1, h2⟩ := ih (max a x)
    refine ⟨le_trans (le_max_left a x) h1, ?_⟩
    intro y hy
    rcases List.mem_cons.mp hy with rfl | hy
    · exact le_trans (le_max_right a y) h1
    · exact h2 y hy

theorem foldl_max_mem (xs : List ℚ) :
    ∀ a : ℚ, List.foldl max a xs = a ∨ List.foldl max a xs ∈ xs := by
  induction xs with
  | nil => intro a; simp
  | cons x xs ih =>
    intro a
    rcases ih (max a x) with h | h
    · rcases max_choice a x with hax | hax
      · left; simp only [List.foldl_cons]; rw [h, hax]
      · right; simp only [List.foldl_cons]; rw [h, hax]; exact List.mem_cons_self x xs
    · right
      simp only [List.foldl_cons]
      exact List.mem_cons_of_mem x h

/-- C9: starting from zeroed statistics, folding the running update
`avg' = (avg*(n-1) + sample)/n` (with `n` the post-increment
`total_checkouts`) over K nonnegative observed latencies leaves
`avg_checkout_time_ms` equal to their arithmetic mean and
`max_checkout_time_ms` equal to their maximum; and a scoped checkout that
obtains a connection applies exactly this update to the metrics for the
measured latency, whatever the unit of work then does. -/
theorem C9_running_avg_max (xs : List ℚ) (m0 : ConnectionMetrics)
    (hne : xs ≠ []) (hc : m0.total_checkouts = 0)
    (ha : m0.avg_checkout_time_ms = 0) (hm : m0.max_checkout_time_ms = 0)
    (hpos : ∀ x ∈ xs, 0 ≤ x) :
    (List.foldl updateCheckoutMetrics m0 xs).avg_checkout_time_ms =
      xs.sum / (xs.length : ℚ) ∧
    ((List.foldl updateCheckoutMetrics m0 xs).max_checkout_time_ms ∈ xs ∧
     ∀ x ∈ xs, x ≤ (List.foldl updateCheckoutMetrics m0 xs).max_checkout_time_ms) ∧
    (∀ (s : PoolState) (now x : ℚ) (f : Nat → Except PyError Conn)
       (w : Except PyError Unit) (s0 s2 : PoolState) (c : Conn) (tr : List Event),
       _check_circuit s now = Except.ok s0 →
       _get_connection s0 f now = (Except.ok c, s2, tr) →
       (get_connection s now f x w).2.1.metrics.avg_checkout_time_ms =
         (updateCheckoutMetrics s2.metrics x).avg_checkout_time_ms ∧
       (get_connection s now f x w).2.1.metrics.max_checkout_time_ms =
         (updateCheckoutMetrics s2.metrics x).max_checkout_time_ms ∧
       (get_connection s now f x w).2.1.metrics.total_checkouts =
         (updateCheckoutMetrics s2.metrics x).total_checkouts) := by
  have hlen : ((xs.length : ℚ)) ≠ 0 := by
    have : xs.length ≠ 0 := by
      intro h0
      exact hne (List.length_eq_zero.mp h0)
    exact_mod_cast this
  refine ⟨?_, ⟨?_, ?_⟩, ?_⟩
  · have havg := foldl_update_avg xs m0
    have hcount := foldl_update_checkouts xs m0
    rw [hcount, hc, ha] at havg
    simp only [Nat.zero_add] at havg
    rw [eq_div_iff hlen]
    simpa using havg
  · have hmax := foldl_update_max xs m0
    rw [hmax, hm]
    rcases foldl_max_mem xs 0 with h | h
    · rw [h]
      obtain ⟨y, hy⟩ : ∃ y, y ∈ xs := by
        cases xs with
        | nil => exact absurd rfl hne
        | cons z zs => exact ⟨z, List.mem_cons_self z zs⟩
      have h1 := (foldl_max_bounds xs 0).2 y hy
      rw [h] at h1
      have h2 := hpos y hy
      have : y = 0 := le_antisymm h1 h2
      rw [← this]
      exact hy
    · exact h
  · intro x hx
    have hmax := foldl_update_max xs m0
    rw [hmax, hm]
    exact (foldl_max_bounds xs 0).2 x hx
  · intro s now x f w s0 s2 c tr hcc hacq
    have hret1 := _return_connection_timing
      (_reset_circuit { s2 with metrics := updateCheckoutMetrics s2.metrics x }) c
    have hret2 := _return_connection_timing
      (bumpErrors { s2 with metrics := updateCheckoutMetrics s2.metrics x }) c
    have hrst := _reset_circuit_timing { s2 with metrics := updateCheckoutMetrics s2.metrics x }
    cases w with
    | ok u =>
      simp only [get_connection, hcc, hacq, checkinMetrics]
      refine ⟨?_, ?_, ?_⟩
      · simpa using hret1.1.trans hrst.1
      · simpa using hret1.2.1.trans hrst.2.1
      · simpa using hret1.2.2.trans hrst.2.2
    | error e =>
      simp only [get_connection, hcc, hacq, checkinMetrics, bumpErrors]
      refine ⟨?_, ?_, ?_⟩
      · simpa [bumpErrors] using hret2.1
      · simpa [bumpErrors] using hret2.2.1
      · simpa [bumpErrors] using hret2.2.2

end Frostel

namespace Frostel

/-- C9 witness: two checkouts with latencies 4 ms and 8 ms leave the running
average at 6 ms and the maximum at 8 ms. -/
theorem C9_running_avg_max_witness :
    (List.foldl updateCheckoutMetrics initMetrics [4, 8]).avg_checkout_time_ms = 6 ∧
    (List.foldl updateCheckoutMetrics initMetrics [4, 8]).max_checkout_time_ms = 8 := by
  have h := C9_running_avg_max [4, 8] initMetrics (by simp) rfl rfl rfl
    (by intro x hx; simp at hx; rcases hx with rfl | rfl <;> norm_num)
  constructor
  · rw [h.1]
    norm_num
  · have hmem := h.2.1.1
    have hub := h.2.1.2 8 (by simp)
    simp only [List.mem_cons, List.mem_singleton, List.not_mem_nil, or_false] at hmem
    rcases hmem with h4 | h8
    · rw [h4] at hub
      norm_num at hub
    · exact h8

/-- C1: when a scoped checkout has obtained a connection and the caller's
unit of work raises, the exception is re-raised unchanged, `total_errors`
grows by exactly one over the whole checkout, `circuit_failures` is
untouched, the transaction is decided by a rollback and never a commit, and
the connection goes through the release algorithm, ending either re-enqueued
into the pool or closed — never leaked. -/
theorem C1_unit_of_work_failure (s : PoolState) (now x : ℚ)
    (f : Nat → Except PyError Conn) (e : PyError) (s0 s2 : PoolState) (c : Conn)
    (tr : List Event)
    (hcc : _check_circuit s now = Except.ok s0)
    (hacq : _get_connection s0 f now = (Except.ok c, s2, tr)) :
    (get_connection s now f x (Except.error e)).1 = Except.error e ∧
    (get_connection s now f x (Except.error e)).2.1.metrics.total_errors =
      s.metrics.total_errors + 1 ∧
    (get_connection s now f x (Except.error e)).2.1.metrics.circuit_failures =
      s.metrics.circuit_failures ∧
    (get_connection s now f x (Except.error e)).2.2 =
      tr ++ Event.rollback c.cid ::
        (_return_connection
          (bumpErrors { s2 with metrics := updateCheckoutMetrics s2.metrics x }) c).2 ∧
    Event.commit c.cid ∉ (get_connection s now f x (Except.error e)).2.2 ∧
    Event.rollback c.cid ∈ (get_connection s now f x (Except.error e)).2.2 ∧
    (Event.enqueue c.cid ∈ (get_connection s now f x (Except.error e)).2.2 ∨
     Event.close c.cid ∈ (get_connection s now f x (Except.error e)).2.2) := by
  have hpre := _get_connection_ok_preserves s0 f now c s2 tr hacq
  have hs0 : s0.metrics.total_errors = s.metrics.total_errors ∧
      s0.metrics.circuit_failures = s.metrics.circuit_failures := by
    rcases check_circuit_ok_cases s s0 now hcc with rfl | rfl <;> simp
  have hret := _return_connection_shape
    (bumpErrors { s2 with metrics := updateCheckoutMetrics s2.metrics x }) c
  have hnt := _get_connection_no_tx s0 f now c.cid
  rw [hacq] at hnt
  have hrnc : ∀ t : PoolState, Event.commit c.cid ∉ (_return_connection t c).2 := by
    intro t
    by_cases hfull : 0 < t.pool_size ∧ t.pool_size ≤ t.pool.length <;>
      simp [_return_connection, queue_put, hfull]
  have hroc : ∀ t : PoolState, Event.enqueue c.cid ∈ (_return_connection t c).2 ∨
      Event.close c.cid ∈ (_return_connection t c).2 := by
    intro t
    by_cases hfull : 0 < t.pool_size ∧ t.pool_size ≤ t.pool.length <;>
      simp [_return_connection, queue_put, hfull]
  simp only [get_connection, hcc, hacq]
  refine ⟨trivial, ?_, ?_, trivial, ?_, ?_, ?_⟩
  · have h1 := (_return_connection_errors
      (bumpErrors { s2 with metrics := updateCheckoutMetrics s2.metrics x }) c).1
    simp only [checkinMetrics]
    rw [h1]
    simp [bumpErrors, updateCheckoutMetrics, hpre.1, hs0.1]
  · have h1 := (_return_connection_errors
      (bumpErrors { s2 with metrics := updateCheckoutMetrics s2.metrics x }) c).2
    simp only [checkinMetrics]
    rw [h1]
    simp [bumpErrors, updateCheckoutMetrics, hpre.2.1, hs0.2]
  · intro hmem
    rcases List.mem_append.mp hmem with h | h
    · exact hnt.1 h
    · rcases List.mem_cons.mp h with h | h
      · exact absurd h (by simp)
      · exact hrnc _ h
  · exact List.mem_append.mpr (Or.inr (List.mem_cons_self _ _))
  · rcases hroc (bumpErrors { s2 with metrics := updateCheckoutMetrics s2.metrics x })
      with h | h
    · exact Or.inl (List.mem_append.mpr (Or.inr (List.mem_cons_of_mem _ h)))
    · exact Or.inr (List.mem_append.mpr (Or.inr (List.mem_cons_of_mem _ h)))

/-- C1 witness: on the demo pool at time 5, a unit of work raising
`userError 42` yields exactly that error back, one error counted, no circuit
failure, a rollback and a re-enqueue of the connection. -/
theorem C1_unit_of_work_failure_witness :
    (get_connection demoPool 5 okOracle 7 (Except.error (PyError.userError 42))).1 =
      Except.error (PyError.userError 42) ∧
    (get_connection demoPool 5 okOracle 7
        (Except.error (PyError.userError 42))).2.1.metrics.total_errors =
      demoPool.metrics.total_errors + 1 ∧
    (get_connection demoPool 5 okOracle 7
        (Except.error (PyError.userError 42))).2.1.metrics.circuit_failures =
      demoPool.metrics.circuit_failures ∧
    Event.rollback okConn.cid ∈
      (get_connection demoPool 5 okOracle 7
        (Except.error (PyError.userError 42))).2.2 := by
  have hcs : demoPool.metrics.circuit_state = CircuitState.CLOSED := rfl
  have hcc : _check_circuit demoPool 5 = Except.ok demoPool := by
    simp [_check_circuit, hcs]
  have hnotstale : _is_connection_stale demoPool okConn 5 = false := by
    simp [_is_connection_stale, demoPool, demoBase, mkInitialState, okConn, List.lookup]
    norm_num
  have halive : _is_connection_alive okConn = true := rfl
  have hq : demoPool.pool = [okConn] := by
    simp [demoPool, demoBase, mkInitialState]
  have hacq : _get_connection demoPool okOracle 5 =
      (Except.ok okConn, demoPoolEmpty, []) := by
    simp [_get_connection, queue_get, hq, stale_pool_irrel, hnotstale, halive,
      demoPoolEmpty]
  have h := C1_unit_of_work_failure demoPool 5 7 okOracle (PyError.userError 42)
    demoPool demoPoolEmpty okConn [] hcc hacq
  exact ⟨h.1, h.2.1, h.2.2.1, h.2.2.2.2.2.1⟩

end Frostel

namespace Frostel

/-! ## Lemmas for the overflow invariant -/

theorem _reset_circuit_frame (s : PoolState) :
    (_reset_circuit s).pool = s.pool ∧
    (_reset_circuit s).overflow_count = s.overflow_count ∧
    (_reset_circuit s).metrics.overflow_connections = s.metrics.overflow_connections ∧
    (_reset_circuit s).pool_size = s.pool_size ∧
    (_reset_circuit s).max_overflow = s.max_overflow := by
  by_cases h : s.metrics.circuit_state ≠ CircuitState.CLOSED <;> simp [_reset_circuit, h]

theorem drainClose_frame :
    ∀ (l : List Conn) (s : PoolState),
      (drainClose l s).1.pool = s.pool ∧
      (drainClose l s).1.overflow_count = s.overflow_count ∧
      (drainClose l s).1.metrics.overflow_connections = s.metrics.overflow_connections ∧
      (drainClose l s).1.pool_size = s.pool_size ∧
      (drainClose l s).1.max_overflow = s.max_overflow := by
  intro l
  induction l with
  | nil => intro s; simp [drainClose]
  | cons c rest ih =>
    intro s
    simpa [drainClose] using ih { s with timestamps := tsPop c.cid s.timestamps }

theorem initLoop_shape (g : Nat → Nat → Except PyError Conn) (now : ℚ) :
    ∀ k i s s', initLoop g now k i s = Except.ok s' →
      cfgPreserved s s' ∧
      s'.pool.length = s.pool.length + k ∧
      s'.overflow_count = s.overflow_count ∧
      s'.metrics.overflow_connections = s.metrics.overflow_connections := by
  intro k
  induction k with
  | zero =>
    intro i s s' h
    simp only [initLoop, Except.ok.injEq] at h
    subst h
    exact ⟨⟨rfl, rfl, rfl, rfl, rfl, rfl⟩, by simp, rfl, rfl⟩
  | succ k ih =>
    intro i s s' h
    simp only [initLoop] at h
    obtain ⟨res, s1, tr1, hrec⟩ :
        ∃ a b c2, _create_connection_with_retry s (g i) now = (a, b, c2) := ⟨_, _, _, rfl⟩
    rw [hrec] at h
    cases res with
    | error e => simp at h
    | ok c =>
      have hfr := createRetry_frame s (g i) now
      rw [hrec] at hfr
      obtain ⟨hfp, hfo, hfg, hfc⟩ := hfr
      simp only at hfp hfo hfg
      obtain ⟨hc1, hl1, ho1, hg1⟩ := ih (i + 1) { s1 with pool := s1.pool ++ [c] } s' h
      simp only [cfgPreserved] at hc1 hfc
      refine ⟨⟨?_, ?_, ?_, ?_, ?_, ?_⟩, ?_, ?_, ?_⟩
      · exact hc1.1.trans hfc.1
      · exact hc1.2.1.trans hfc.2.1
      · exact hc1.2.2.1.trans hfc.2.2.1
      · exact hc1.2.2.2.1.trans hfc.2.2.2.1
      · exact hc1.2.2.2.2.1.trans hfc.2.2.2.2.1
      · exact hc1.2.2.2.2.2.trans hfc.2.2.2.2.2
      · have h5 : (s1.pool ++ [c]).length = s.pool.length + 1 := by simp [hfp]
        calc s'.pool.length = (s1.pool ++ [c]).length + k := hl1
          _ = s.pool.length + 1 + k := by rw [h5]
          _ = s.pool.length + (k + 1) := by omega
      · exact ho1.trans hfo
      · exact hg1.trans hfg

theorem overflowInv_init (ps mo : Nat) (pr : ℚ) (mra cft : Nat) (ct : ℚ)
    (g : Nat → Nat → Except PyError Conn) (now : ℚ) (s0 : PoolState)
    (h : _initialise_pool (mkInitialState ps mo pr mra cft ct) g now = Except.ok s0) :
    overflowInv ⟨s0, []⟩ := by
  have hshape := initLoop_shape g now
    (mkInitialState ps mo pr mra cft ct).pool_size 0
    (mkInitialState ps mo pr mra cft ct) s0 (by simpa [_initialise_pool] using h)
  obtain ⟨hcfg, hlen, ho, hg⟩ := hshape
  simp only [cfgPreserved, mkInitialState, initMetrics] at hcfg hlen ho hg
  simp only [overflowInv, ho, hg]
  refine ⟨by simp, by simp, ?_, by simp⟩
  simp only [List.length_nil]
  have hplen : s0.pool.length = ps := by simpa using hlen
  rw [hplen, hcfg.1]
  simp

theorem overflowInv_step (w w' : World) (hstep : Step w w') (hinv : overflowInv w) :
    overflowInv w' := by
  obtain ⟨h1, h2, h3, h4⟩ := hinv
  cases hstep with
  | checkout_ok now x f s1 s2 c tr hcc hacq =>
    have hs1 : s1.pool = w.s.pool ∧ s1.overflow_count = w.s.overflow_count ∧
        s1.metrics.overflow_connections = w.s.metrics.overflow_connections ∧
        s1.pool_size = w.s.pool_size ∧ s1.max_overflow = w.s.max_overflow := by
      rcases check_circuit_ok_cases w.s s1 now hcc with heq | heq <;> subst heq <;>
        exact ⟨rfl, rfl, rfl, rfl, rfl⟩
    obtain ⟨hsp, hso, hsg, hsz, hsm⟩ := hs1
    obtain ⟨hcfg, hdisj⟩ := _get_connection_ok_shape s1 f now c s2 tr hacq
    simp only [cfgPreserved] at hcfg
    obtain ⟨hz1, hz2, -, -, -, -⟩ := hcfg
    have hlp : s1.pool.length = w.s.pool.length := by rw [hsp]
    have hu : (updateCheckoutMetrics s2.metrics x).overflow_connections =
        s2.metrics.overflow_connections := by simp [updateCheckoutMetrics]
    simp only [overflowInv, List.length_cons]
    simp only [hu]
    rcases hdisj with ⟨ha, hb, hc'⟩ | ⟨ha, hb, hc', hd, he⟩
    · refine ⟨by omega, by omega, by omega, by omega⟩
    · have hap : s1.pool.length = 0 := by rw [ha]; rfl
      have hbp : s2.pool.length = 0 := by rw [hb]; rfl
      refine ⟨by omega, by omega, by omega, by omega⟩
  | checkout_fail now f s1 s2 e tr hcc hacq =>
    have hs1 : s1.pool = w.s.pool ∧ s1.overflow_count = w.s.overflow_count ∧
        s1.metrics.overflow_connections = w.s.metrics.overflow_connections ∧
        s1.pool_size = w.s.pool_size ∧ s1.max_overflow = w.s.max_overflow := by
      rcases check_circuit_ok_cases w.s s1 now hcc with heq | heq <;> subst heq <;>
        exact ⟨rfl, rfl, rfl, rfl, rfl⟩
    obtain ⟨hsp, hso, hsg, hsz, hsm⟩ := hs1
    obtain ⟨hcfg, hdisj⟩ := _get_connection_err_shape s1 f now e s2 tr hacq
    simp only [cfgPreserved] at hcfg
    obtain ⟨hz1, hz2, -, -, -, -⟩ := hcfg
    have hlp : s1.pool.length = w.s.pool.length := by rw [hsp]
    simp only [overflowInv, checkinMetrics, bumpErrors]
    rcases hdisj with ⟨ha, hb, hc'⟩ | ⟨ha, hb, hc', hd, he⟩
    · refine ⟨by omega, by omega, by omega, by omega⟩
    · have hap : s1.pool.length = 0 := by rw [ha]; rfl
      have hbp : s2.pool.length = 0 := by rw [hb]; rfl
      refine ⟨by omega, by omega, by omega, by omega⟩
  | finish_ok c hmem =>
    have hel : (w.out.erase c).length = w.out.length - 1 :=
      List.length_erase_of_mem hmem
    have hpos : 0 < w.out.length := List.length_pos_of_mem hmem
    obtain ⟨hrp, hro, hrg, hrz, hrm⟩ := _reset_circuit_frame w.s
    have hlp : (_reset_circuit w.s).pool.length = w.s.pool.length := by rw [hrp]
    obtain ⟨hrcfg, -, -, -, -, hdisj⟩ := _return_connection_shape (_reset_circuit w.s) c
    simp only [cfgPreserved] at hrcfg
    obtain ⟨hq1, hq2, -, -, -, -⟩ := hrcfg
    simp only [overflowInv, checkinMetrics]
    rcases hdisj with ⟨hnf, ha, hb, hc'⟩ | ⟨⟨hf1, hf2⟩, ha, hb, hc'⟩
    · have hap : (_return_connection (_reset_circuit w.s) c).1.pool.length =
          w.s.pool.length + 1 := by rw [ha, hrp]; simp
      refine ⟨by omega, by omega, by omega, by omega⟩
    · have hap : (_return_connection (_reset_circuit w.s) c).1.pool.length =
          w.s.pool.length := by rw [ha, hrp]
      rw [hrz] at hf2
      rw [hrz] at hf1
      rw [hlp] at hf2
      refine ⟨by omega, by omega, by omega, by omega⟩
  | finish_err c hmem =>
    have hel : (w.out.erase c).length = w.out.length - 1 :=
      List.length_erase_of_mem hmem
    have hpos : 0 < w.out.length := List.length_pos_of_mem hmem
    have hbo : (bumpErrors w.s).pool = w.s.pool ∧
        (bumpErrors w.s).overflow_count = w.s.overflow_count ∧
        (bumpErrors w.s).metrics.overflow_connections =
          w.s.metrics.overflow_connections ∧
        (bumpErrors w.s).pool_size = w.s.pool_size ∧
        (bumpErrors w.s).max_overflow = w.s.max_overflow := by
      simp [bumpErrors]
    obtain ⟨hrp, hro, hrg, hrz, hrm⟩ := hbo
    have hlp : (bumpErrors w.s).pool.length = w.s.pool.length := by rw [hrp]
    obtain ⟨hrcfg, -, -, -, -, hdisj⟩ := _return_connection_shape (bumpErrors w.s) c
    simp only [cfgPreserved] at hrcfg
    obtain ⟨hq1, hq2, -, -, -, -⟩ := hrcfg
    simp only [overflowInv, checkinMetrics]
    rcases hdisj with ⟨hnf, ha, hb, hc'⟩ | ⟨⟨hf1, hf2⟩, ha, hb, hc'⟩
    · have hap : (_return_connection (bumpErrors w.s) c).1.pool.length =
          w.s.pool.length + 1 := by rw [ha, hrp]; simp
      refine ⟨by omega, by omega, by omega, by omega⟩
    · have hap : (_return_connection (bumpErrors w.s) c).1.pool.length =
          w.s.pool.length := by rw [ha, hrp]
      rw [hrz] at hf2
      rw [hrz] at hf1
      rw [hlp] at hf2
      refine ⟨by omega, by omega, by omega, by omega⟩
  | close_all =>
    obtain ⟨hdp, hdo, hdg, hdz, hdm⟩ :=
      drainClose_frame w.s.pool { w.s with pool := [] }
    have hlen : (close_all_connections w.s).1.pool.length = 0 := by
      simp [close_all_connections, hdp]
    have e1 : (close_all_connections w.s).1.overflow_count = w.s.overflow_count := by
      simpa [close_all_connections] using hdo
    have e2 : (close_all_connections w.s).1.metrics.overflow_connections =
        w.s.metrics.overflow_connections := by
      simpa [close_all_connections] using hdg
    have e4 : (close_all_connections w.s).1.pool_size = w.s.pool_size := by
      simpa [close_all_connections] using hdz
    have e5 : (close_all_connections w.s).1.max_overflow = w.s.max_overflow := by
      simpa [close_all_connections] using hdm
    simp only [overflowInv]
    refine ⟨by omega, by omega, by omega, by omega⟩
  | health ok now =>
    have hh : (health_check w.s ok now).overflow_count = w.s.overflow_count ∧
        (health_check w.s ok now).metrics.overflow_connections =
          w.s.metrics.overflow_connections ∧
        (health_check w.s ok now).pool.length = w.s.pool.length ∧
        (health_check w.s ok now).pool_size = w.s.pool_size ∧
        (health_check w.s ok now).max_overflow = w.s.max_overflow := by
      cases ok <;> simp [health_check]
    obtain ⟨e1, e2, e3, e4, e5⟩ := hh
    simp only [overflowInv]
    refine ⟨by omega, by omega, by omega, by omega⟩

theorem reachable_overflowInv : ∀ w, Reachable w → overflowInv w := by
  intro w h
  induction h with
  | init ps mo pr mra cft ct g now s0 hinit =>
    exact overflowInv_init ps mo pr mra cft ct g now s0 hinit
  | step w0 w1 hr hs ih => exact overflowInv_step w0 w1 hs ih

end Frostel

namespace Frostel

/-- C5: in every reachable state of the pool — reachable via construction,
the lock-protected phases of scoped checkouts (circuit check + acquisition,
then commit/rollback + release), `close_all_connections` and `health_check`
— the overflow counter satisfies `0 ≤ overflow_count ≤ max_overflow`, and
the published `overflow_connections` gauge never exceeds `max_overflow`:
the counter is incremented only after the `overflow_count < max_overflow`
check and decremented only when an overflow connection is closed at
release. -/
theorem C5_overflow_bounded (w : World) (h : Reachable w) :
    0 ≤ w.s.overflow_count ∧
    w.s.overflow_count ≤ (w.s.max_overflow : Int) ∧
    w.s.metrics.overflow_connections ≤ (w.s.max_overflow : Int) := by
  obtain ⟨h1, h2, h3, h4⟩ := reachable_overflowInv w h
  exact ⟨h1, h2, h4⟩

/-- C5 witness: the freshly initialised demo pool satisfies the overflow
bounds. -/
theorem C5_overflow_bounded_witness :
    0 ≤ demoInitState.overflow_count ∧
    demoInitState.overflow_count ≤ (demoInitState.max_overflow : Int) ∧
    demoInitState.metrics.overflow_connections ≤ (demoInitState.max_overflow : Int) :=
  C5_overflow_bounded ⟨demoInitState, []⟩
    (Reachable.init 1 1 3600 3 5 60 (fun _ _ => Except.ok okConn) 0 demoInitState rfl)

end Frostel
